import Mathlib

/-!
# Lifecycle of `MinimalGRPCServer.Run` (server/server.go)

`Run` is one coordination routine: it builds a gRPC server, applies the
registration functions, binds a listener, subscribes to termination signals,
serves in a goroutine, waits for a signal, races a graceful stop against a
grace-period timer and finally reads the serve goroutine's result.

## The embedding

A small-step interleaving semantics.  The state holds the program point of the
main flow and of the two goroutines, the timer made by `time.After`, the
buffered signal channel, the process-wide table of signal subscriptions, the
server instance and the trace of events performed by the goroutines of `Run`.
A schedule is a list of moves; a move is one statement of one goroutine or one
move of the environment (a capability call returning, the timer firing, a
signal being relayed).  The environment is unconstrained: `Serve` and
`GracefulStop` may return at any time after they are called, `Serve` with any
result, the timer may fire at any time after it is made, signals may arrive at
any time and in any number.  A statement proved for all schedules therefore
holds for all behaviours of the capabilities.

Go semantics that the model keeps:
* an unbuffered channel hands a value over only when sender and receiver meet
  (`awaitingResult` with `sending`, `selectStopped`);
* a `select` with several ready cases may take any of them (`selectStopped` and
  `selectTimer` can both be possible);
* `signal.Notify` never blocks: a signal that finds the buffer full is dropped;
* `stacktrace.Propagate` wraps its cause.

Outside the model: registration functions that do not return, `Stop` not
returning, and what the process does with a signal nobody subscribed to.
-/

namespace Server

/-- Go `error` values as this program builds them: an error produced by an
external capability, or `stacktrace.Propagate(cause, msg)` wrapping a cause. -/
inductive Err where
  | base (msg : String)
  | propagate (cause : Err) (msg : String)
  deriving DecidableEq, Repr

/-- Operating-system signals; `signal.Notify` in `Run` names three of them. -/
inductive Signal where
  | SIGHUP
  | SIGINT
  | SIGQUIT
  | SIGTERM
  | SIGUSR1
  deriving DecidableEq, Repr

/-- Severity of a logrus event. -/
inductive Level where
  | debug
  | warn
  deriving DecidableEq, Repr

/-- The `*grpc.Server` instance as the registration functions see it: the
services attached so far. -/
structure GrpcServer where
  services : List String
  deriving DecidableEq, Repr

/-- The struct `MinimalGRPCServer` (server.go lines 15-20).  `listenPort` is a
`uint32`, `stopGracePeriod` a `time.Duration` (nanoseconds). -/
structure MinimalGRPCServer where
  listenPort : Nat
  listenProtocol : String
  stopGracePeriod : Int
  serviceRegistrationFuncs : List (GrpcServer → GrpcServer)

/-- Library behaviour that does not depend on timing: the outcome of
`net.Listen(network, address)` (`none` is a bound listener) and the `%v`
rendering of a `time.Duration`. -/
structure World where
  listen : String → String → Option Err
  formatDuration : Int → String

/-- Events performed by the goroutines of one `Run` call, in execution order. -/
inductive Event where
  | newServer
  | registered (i : Nat)
  | listenCalled (network address : String)
  | notify (sigs : List Signal)
  | goServe
  | serveCalled
  | serveReturned (err : Option Err)
  | recvSignal (sig : Signal)
  | goWatcher
  | gracefulStopCalled
  | gracefulStopReturned
  | timerStarted (d : Int)
  | recvStopped
  | recvTimer
  | log (level : Level) (msg : String)
  | stopCalled
  | recvResult (err : Option Err)
  | returned (err : Option Err)
  deriving DecidableEq, Repr

/-- Program point of the main flow of `Run`; each names the statement that is
executed next. -/
inductive MainPC where
  | newServer
  | registering (i : Nat)
  | listening
  | notifying
  | spawningServe
  | awaitingSignal
  | spawningWatcher
  | enteringSelect
  | selecting
  | gracefulDebug
  | forcedWarn
  | forcedStop
  | forcedDebug
  | awaitingResult
  | returned (err : Option Err)
  deriving DecidableEq, Repr

/-- Program point of the goroutine of lines 46-52: not spawned, spawned, inside
`grpcServer.Serve`, blocked on `grpcServerResultChan <- resultErr`, finished. -/
inductive ServeState where
  | notStarted
  | ready
  | inServe
  | sending (resultErr : Option Err)
  | done
  deriving DecidableEq, Repr

/-- Program point of the goroutine of lines 58-61: not spawned, spawned, inside
`grpcServer.GracefulStop`, blocked on `serverStoppedChan <- nil`, finished. -/
inductive WatcherState where
  | notStarted
  | ready
  | inGracefulStop
  | sending
  | done
  deriving DecidableEq, Repr

/-- The timer behind `time.After(server.stopGracePeriod)`. -/
inductive TimerState where
  | notStarted
  | running
  | fired
  | received
  deriving DecidableEq, Repr

/-- One move of a schedule.  `main`, `serve`, `watcher` run the next statement
of a goroutine; `selectStopped` and `selectTimer` are the two cases of the
`select` of lines 62-69; the others are moves of the environment. -/
inductive Action where
  | main
  | serve
  | serveReturns (err : Option Err)
  | watcher
  | gracefulStopReturns
  | timerFires
  | selectStopped
  | selectTimer
  | signal (sig : Signal)
  deriving DecidableEq, Repr

/-- State of one `Run` call.  `termSignalChan` is `none` until the channel is
made, then its buffer; `handlers` is the process-wide table of signal
subscriptions (one entry per `signal.Notify` registration). -/
structure State where
  main : MainPC
  serve : ServeState
  watcher : WatcherState
  timer : TimerState
  termSignalChan : Option (List Signal)
  handlers : List (List Signal)
  grpcServer : GrpcServer
  trace : List Event
  deriving DecidableEq, Repr

/-- The signals named in `signal.Notify` (line 42). -/
def notifySignals : List Signal := [.SIGINT, .SIGTERM, .SIGQUIT]

/-- Capacity of `termSignalChan` (line 41). -/
def termSignalChanCap : Nat := 1

/-- Line 29: `fmt.Sprintf(":%v", server.listenPort)`. -/
def listenAddressStr (server : MinimalGRPCServer) : String :=
  ":" ++ toString server.listenPort

/-- Lines 32-37: the error returned when `net.Listen` fails. -/
def listenerError (server : MinimalGRPCServer) (err : Err) : Err :=
  .propagate err
    ("An error occurred creating the listener on " ++ server.listenProtocol ++ "/" ++
      toString server.listenPort)

/-- Lines 47-50: the value the serve goroutine sends, from what `Serve` returned. -/
def serveResultErr (err : Option Err) : Option Err :=
  match err with
  | some e => some (.propagate e "The gRPC server exited with an error")
  | none => none

/-- Lines 70-75: the value `Run` returns, from what it received on
`grpcServerResultChan`. -/
def finalResult (received : Option Err) : Option Err :=
  match received with
  | some e => some (.propagate e "gRPC server returned an error after it was done serving")
  | none => none

/-- Line 66: the text of the warning. -/
def forcedWarning (server : MinimalGRPCServer) (w : World) : String :=
  "gRPC server failed to stop gracefully after " ++ w.formatDuration server.stopGracePeriod ++
    "; hard-stopping now..."

/-- Initial state of a `Run` call in a process whose signal-subscription table
is `handlers`. -/
def init (handlers : List (List Signal)) : State where
  main := .newServer
  serve := .notStarted
  watcher := .notStarted
  timer := .notStarted
  termSignalChan := none
  handlers := handlers
  grpcServer := ⟨[]⟩
  trace := []

/-- The next statement of the main flow, `none` when it is blocked (on the
signal channel, in the `select`, on the result channel) or has returned. -/
def nextMain (server : MinimalGRPCServer) (w : World) (s : State) : Option State :=
  match s.main with
  -- line 23: grpcServer := grpc.NewServer()
  | .newServer =>
    some { s with main := .registering 0, grpcServer := ⟨[]⟩, trace := s.trace ++ [.newServer] }
  -- lines 25-27: the range loop over serviceRegistrationFuncs
  | .registering i =>
    match server.serviceRegistrationFuncs[i]? with
    | some registrationFunc =>
      some { s with main := .registering (i + 1), grpcServer := registrationFunc s.grpcServer,
                    trace := s.trace ++ [.registered i] }
    | none => some { s with main := .listening }
  -- lines 29-38: net.Listen, and the early return when it fails
  | .listening =>
    match w.listen server.listenProtocol (listenAddressStr server) with
    | some err =>
      some { s with main := .returned (some (listenerError server err)),
                    trace := s.trace ++ [.listenCalled server.listenProtocol (listenAddressStr server),
                                         .returned (some (listenerError server err))] }
    | none =>
      some { s with main := .notifying,
                    trace := s.trace ++ [.listenCalled server.listenProtocol (listenAddressStr server)] }
  -- lines 41-42: make(chan os.Signal, 1) and signal.Notify
  | .notifying =>
    some { s with main := .spawningServe, termSignalChan := some [],
                  handlers := s.handlers ++ [notifySignals],
                  trace := s.trace ++ [.notify notifySignals] }
  -- lines 44-52: make(chan error) and the go statement of the serve goroutine
  | .spawningServe =>
    some { s with main := .awaitingSignal, serve := .ready, trace := s.trace ++ [.goServe] }
  -- line 55: <- termSignalChan
  | .awaitingSignal =>
    match s.termSignalChan with
    | some (sig :: rest) =>
      some { s with main := .spawningWatcher, termSignalChan := some rest,
                    trace := s.trace ++ [.recvSignal sig] }
    | _ => none
  -- lines 57-61: make(chan interface{}) and the go statement of the watcher
  | .spawningWatcher =>
    some { s with main := .enteringSelect, watcher := .ready, trace := s.trace ++ [.goWatcher] }
  -- lines 62, 65: entering the select evaluates time.After(server.stopGracePeriod)
  | .enteringSelect =>
    some { s with main := .selecting, timer := .running,
                  trace := s.trace ++ [.timerStarted server.stopGracePeriod] }
  -- lines 62-65: blocked in the select; its two cases are moves of their own
  | .selecting => none
  -- line 64
  | .gracefulDebug =>
    some { s with main := .awaitingResult,
                  trace := s.trace ++ [.log .debug "gRPC server has exited gracefully"] }
  -- line 66
  | .forcedWarn =>
    some { s with main := .forcedStop, trace := s.trace ++ [.log .warn (forcedWarning server w)] }
  -- line 67
  | .forcedStop =>
    some { s with main := .forcedDebug, trace := s.trace ++ [.stopCalled] }
  -- line 68
  | .forcedDebug =>
    some { s with main := .awaitingResult,
                  trace := s.trace ++ [.log .debug "gRPC server was forcefully stopped"] }
  -- lines 70-75: receive on the unbuffered grpcServerResultChan, then return
  | .awaitingResult =>
    match s.serve with
    | .sending resultErr =>
      some { s with main := .returned (finalResult resultErr), serve := .done,
                    trace := s.trace ++ [.recvResult resultErr, .returned (finalResult resultErr)] }
    | _ => none
  | .returned _ => none

/-- One move; `none` when the move is not possible in `s`.  A signal named in
`signal.Notify` that arrives while the channel buffer is full is dropped (the
runtime never blocks on the channel); a signal the channel is not subscribed
to, or one that arrives before the subscription, does not reach this call. -/
def next (server : MinimalGRPCServer) (w : World) (s : State) : Action → Option State
  | .main => nextMain server w s
  -- line 48: the serve goroutine calls grpcServer.Serve(listener)
  | .serve =>
    match s.serve with
    | .ready => some { s with serve := .inServe, trace := s.trace ++ [.serveCalled] }
    | _ => none
  -- lines 47-51: Serve returns; the goroutine reaches its send on the unbuffered channel
  | .serveReturns err =>
    match s.serve with
    | .inServe =>
      some { s with serve := .sending (serveResultErr err), trace := s.trace ++ [.serveReturned err] }
    | _ => none
  -- line 59: the watcher calls grpcServer.GracefulStop()
  | .watcher =>
    match s.watcher with
    | .ready => some { s with watcher := .inGracefulStop, trace := s.trace ++ [.gracefulStopCalled] }
    | _ => none
  -- lines 59-60: GracefulStop returns; the watcher reaches its send on the unbuffered channel
  | .gracefulStopReturns =>
    match s.watcher with
    | .inGracefulStop =>
      some { s with watcher := .sending, trace := s.trace ++ [.gracefulStopReturned] }
    | _ => none
  -- the timer of line 65 fires
  | .timerFires =>
    match s.timer with
    | .running => some { s with timer := .fired }
    | _ => none
  -- line 63: the select receives from the watcher, whose send completes
  | .selectStopped =>
    match s.main, s.watcher with
    | .selecting, .sending =>
      some { s with main := .gracefulDebug, watcher := .done, trace := s.trace ++ [.recvStopped] }
    | _, _ => none
  -- line 65: the select receives from the timer
  | .selectTimer =>
    match s.main, s.timer with
    | .selecting, .fired =>
      some { s with main := .forcedWarn, timer := .received, trace := s.trace ++ [.recvTimer] }
    | _, _ => none
  -- the runtime relays a signal to termSignalChan without blocking
  | .signal sig =>
    match s.termSignalChan with
    | some buf =>
      if sig ∈ notifySignals then
        if buf.length < termSignalChanCap then some { s with termSignalChan := some (buf ++ [sig]) }
        else some s
      else none
    | none => none

/-- One move of a schedule; a move that is not possible leaves the state as it is. -/
def step (server : MinimalGRPCServer) (w : World) (s : State) (a : Action) : State :=
  (next server w s a).getD s

/-- The state after a schedule. -/
def exec (server : MinimalGRPCServer) (w : World) (s : State) (sched : List Action) : State :=
  sched.foldl (step server w) s

/-- The state after a schedule all of whose moves are possible, else `none`. -/
def execStrict (server : MinimalGRPCServer) (w : World) (s : State) : List Action → Option State
  | [] => some s
  | a :: rest =>
    match next server w s a with
    | some t => execStrict server w t rest
    | none => none

/-- One `Run` call under a schedule, in a process with subscription table `handlers`. -/
def Run (server : MinimalGRPCServer) (w : World) (handlers : List (List Signal))
    (sched : List Action) : State :=
  exec server w (init handlers) sched

/-- The outcome of the one `net.Listen` call of `Run`. -/
def listenOutcome (server : MinimalGRPCServer) (w : World) : Option Err :=
  w.listen server.listenProtocol (listenAddressStr server)

/-- The serve goroutine has been spawned (line 46). -/
def ServeState.spawned : ServeState → Bool
  | .notStarted => false
  | _ => true

/-- The serve goroutine has called `Serve` (line 48). -/
def ServeState.called : ServeState → Bool
  | .notStarted | .ready => false
  | _ => true

/-- `Serve` has returned. -/
def ServeState.finished : ServeState → Bool
  | .sending _ | .done => true
  | _ => false

/-- The serve goroutine has handed its result over and finished. -/
def ServeState.isDone : ServeState → Bool
  | .done => true
  | _ => false

/-- The watcher goroutine has been spawned (line 58). -/
def WatcherState.spawned : WatcherState → Bool
  | .notStarted => false
  | _ => true

/-- The watcher has called `GracefulStop` (line 59). -/
def WatcherState.called : WatcherState → Bool
  | .notStarted | .ready => false
  | _ => true

/-- `GracefulStop` has returned. -/
def WatcherState.finished : WatcherState → Bool
  | .sending | .done => true
  | _ => false

/-- The watcher has handed its completion over and finished. -/
def WatcherState.isDone : WatcherState → Bool
  | .done => true
  | _ => false

/-- The timer has been made (line 65). -/
def TimerState.started : TimerState → Bool
  | .notStarted => false
  | _ => true

/-- The `select` has received from the timer. -/
def TimerState.isReceived : TimerState → Bool
  | .received => true
  | _ => false

/-- A receive on `termSignalChan`. -/
def Event.isRecvSignal : Event → Bool
  | .recvSignal _ => true
  | _ => false

/-- A return of `Serve`. -/
def Event.isServeReturned : Event → Bool
  | .serveReturned _ => true
  | _ => false

/-- A receive on `grpcServerResultChan`. -/
def Event.isRecvResult : Event → Bool
  | .recvResult _ => true
  | _ => false

/-- A return of `Run`. -/
def Event.isReturned : Event → Bool
  | .returned _ => true
  | _ => false

/-- A warning-level log event. -/
def Event.isWarn : Event → Bool
  | .log .warn _ => true
  | _ => false

/-- `Run` has returned. -/
def MainPC.isReturned : MainPC → Bool
  | .returned _ => true
  | _ => false

/-- The main flow has passed `<- termSignalChan` (line 55). -/
def MainPC.pastSignal : MainPC → Bool
  | .spawningWatcher | .enteringSelect | .selecting | .gracefulDebug | .forcedWarn
  | .forcedStop | .forcedDebug | .awaitingResult => true
  | _ => false

/-- The main flow has passed the warning of line 66, given the timer case. -/
def MainPC.pastWarn : MainPC → Bool
  | .forcedStop | .forcedDebug | .awaitingResult | .returned _ => true
  | _ => false

/-- The main flow has passed the `Stop` of line 67, given the timer case. -/
def MainPC.pastStop : MainPC → Bool
  | .forcedDebug | .awaitingResult | .returned _ => true
  | _ => false

/-- The main flow has left the `select` statement. -/
def MainPC.pastBranch : MainPC → Bool
  | .awaitingResult | .returned _ => true
  | _ => false

/-- Zero or one. -/
@[simp]
def b2n (b : Bool) : Nat := if b then 1 else 0

/-- Which control states go together. -/
def ctrlOK (server : MinimalGRPCServer) (w : World) (s : State) : Prop :=
  match s.main with
  | .newServer | .registering _ | .listening =>
    s.serve = .notStarted ∧ s.watcher = .notStarted ∧ s.timer = .notStarted ∧
      s.termSignalChan = none
  | .notifying =>
    s.serve = .notStarted ∧ s.watcher = .notStarted ∧ s.timer = .notStarted ∧
      s.termSignalChan = none ∧ listenOutcome server w = none
  | .spawningServe =>
    s.serve = .notStarted ∧ s.watcher = .notStarted ∧ s.timer = .notStarted ∧
      s.termSignalChan.isSome ∧ listenOutcome server w = none
  | .awaitingSignal | .spawningWatcher =>
    s.serve.spawned ∧ ¬ s.serve.isDone ∧ s.watcher = .notStarted ∧ s.timer = .notStarted ∧
      s.termSignalChan.isSome ∧ listenOutcome server w = none
  | .enteringSelect =>
    s.serve.spawned ∧ ¬ s.serve.isDone ∧ s.watcher.spawned ∧ ¬ s.watcher.isDone ∧
      s.timer = .notStarted ∧ s.termSignalChan.isSome ∧ listenOutcome server w = none
  | .selecting =>
    s.serve.spawned ∧ ¬ s.serve.isDone ∧ s.watcher.spawned ∧ ¬ s.watcher.isDone ∧
      s.timer.started ∧ ¬ s.timer.isReceived ∧ s.termSignalChan.isSome ∧
      listenOutcome server w = none
  | .gracefulDebug =>
    s.serve.spawned ∧ ¬ s.serve.isDone ∧ s.watcher = .done ∧
      s.timer.started ∧ ¬ s.timer.isReceived ∧ s.termSignalChan.isSome ∧
      listenOutcome server w = none
  | .forcedWarn | .forcedStop | .forcedDebug =>
    s.serve.spawned ∧ ¬ s.serve.isDone ∧ s.watcher.spawned ∧ ¬ s.watcher.isDone ∧
      s.timer = .received ∧ s.termSignalChan.isSome ∧ listenOutcome server w = none
  | .awaitingResult =>
    s.serve.spawned ∧ ¬ s.serve.isDone ∧ s.watcher.spawned ∧ s.timer.started ∧
      (s.watcher.isDone ↔ ¬ s.timer.isReceived) ∧ s.termSignalChan.isSome ∧
      listenOutcome server w = none
  | .returned r =>
    (∃ err, listenOutcome server w = some err ∧ r = some (listenerError server err) ∧
      s.serve = .notStarted ∧ s.watcher = .notStarted ∧ s.timer = .notStarted ∧
      s.termSignalChan = none) ∨
    (s.serve = .done ∧ s.watcher.spawned ∧ s.timer.started ∧
      (s.watcher.isDone ↔ ¬ s.timer.isReceived) ∧ s.termSignalChan.isSome ∧
      listenOutcome server w = none)

/-- The trace of the main flow when `i` registration functions have been applied. -/
def setupTrace (i : Nat) : List Event :=
  .newServer :: (List.range i).map .registered

/-- The server instance after the first `i` registration functions. -/
def applied (server : MinimalGRPCServer) (i : Nat) : GrpcServer :=
  (server.serviceRegistrationFuncs.take i).foldl (fun g f => f g) ⟨[]⟩

/-- What the set-up phase (lines 23-30) has done, by program point. -/
def setupOK (server : MinimalGRPCServer) (s : State) : Prop :=
  match s.main with
  | .newServer => s.trace = [] ∧ s.grpcServer = ⟨[]⟩
  | .registering i =>
    i ≤ server.serviceRegistrationFuncs.length ∧ s.trace = setupTrace i ∧
      s.grpcServer = applied server i
  | .listening =>
    s.trace = setupTrace server.serviceRegistrationFuncs.length ∧
      s.grpcServer = applied server server.serviceRegistrationFuncs.length
  | _ => s.grpcServer = applied server server.serviceRegistrationFuncs.length

/-- Number of occurrences in a trace of each kind of event the claims count. -/
structure Summary where
  notify : Nat
  goServe : Nat
  serveCalled : Nat
  serveReturned : Nat
  recvResult : Nat
  recvSignal : Nat
  goWatcher : Nat
  gsCalled : Nat
  gsReturned : Nat
  recvStopped : Nat
  timerStarted : Nat
  recvTimer : Nat
  warn : Nat
  warnText : Nat
  stop : Nat
  debugForced : Nat
  debugGraceful : Nat
  returned : Nat

/-- The summary of a trace. -/
def summary (server : MinimalGRPCServer) (w : World) (t : List Event) : Summary where
  notify := t.count (.notify notifySignals)
  goServe := t.count .goServe
  serveCalled := t.count .serveCalled
  serveReturned := t.countP Event.isServeReturned
  recvResult := t.countP Event.isRecvResult
  recvSignal := t.countP Event.isRecvSignal
  goWatcher := t.count .goWatcher
  gsCalled := t.count .gracefulStopCalled
  gsReturned := t.count .gracefulStopReturned
  recvStopped := t.count .recvStopped
  timerStarted := t.count (.timerStarted server.stopGracePeriod)
  recvTimer := t.count .recvTimer
  warn := t.countP Event.isWarn
  warnText := t.count (.log .warn (forcedWarning server w))
  stop := t.count .stopCalled
  debugForced := t.count (.log .debug "gRPC server was forcefully stopped")
  debugGraceful := t.count (.log .debug "gRPC server has exited gracefully")
  returned := t.countP Event.isReturned

/-- The summary the trace must have in a given control state. -/
def expected (s : State) : Summary where
  notify := b2n s.termSignalChan.isSome
  goServe := b2n s.serve.spawned
  serveCalled := b2n s.serve.called
  serveReturned := b2n s.serve.finished
  recvResult := b2n s.serve.isDone
  recvSignal := b2n (s.main.pastSignal || s.watcher.spawned)
  goWatcher := b2n s.watcher.spawned
  gsCalled := b2n s.watcher.called
  gsReturned := b2n s.watcher.finished
  recvStopped := b2n s.watcher.isDone
  timerStarted := b2n s.timer.started
  recvTimer := b2n s.timer.isReceived
  warn := b2n (s.timer.isReceived && s.main.pastWarn)
  warnText := b2n (s.timer.isReceived && s.main.pastWarn)
  stop := b2n (s.timer.isReceived && s.main.pastStop)
  debugForced := b2n (s.timer.isReceived && s.main.pastBranch)
  debugGraceful := b2n (s.watcher.isDone && s.main.pastBranch)
  returned := b2n s.main.isReturned

/-- The invariant of `Run`: the control states are consistent and the number
of occurrences of each event in the trace is a function of the control state. -/
structure Inv (server : MinimalGRPCServer) (w : World) (h0 : List (List Signal)) (s : State) :
    Prop where
  ctrl : ctrlOK server w s
  setup : setupOK server s
  handlers_eq : s.handlers = h0 ++ (if s.termSignalChan.isSome then [notifySignals] else [])
  buf_le : ∀ buf, s.termSignalChan = some buf → buf.length ≤ termSignalChanCap
  counts : summary server w s.trace = expected s
  ret_link : ∀ r, s.main = .returned r → .returned r ∈ s.trace
  serve_link : ∀ x, s.serve = .sending x → ∃ e, x = serveResultErr e ∧ .serveReturned e ∈ s.trace

/-- Componentwise sum of two summaries. -/
def Summary.add (a b : Summary) : Summary :=
  ⟨a.notify + b.notify, a.goServe + b.goServe, a.serveCalled + b.serveCalled,
   a.serveReturned + b.serveReturned, a.recvResult + b.recvResult, a.recvSignal + b.recvSignal,
   a.goWatcher + b.goWatcher, a.gsCalled + b.gsCalled, a.gsReturned + b.gsReturned,
   a.recvStopped + b.recvStopped, a.timerStarted + b.timerStarted, a.recvTimer + b.recvTimer,
   a.warn + b.warn, a.warnText + b.warnText, a.stop + b.stop, a.debugForced + b.debugForced,
   a.debugGraceful + b.debugGraceful, a.returned + b.returned⟩

/-- The main flow has received a termination signal (line 55) in this history. -/
def signalled (a : List Event) : Prop := a.any Event.isRecvSignal = true

instance (a : List Event) : Decidable (signalled a) := by unfold signalled; infer_instance

/-- The graceful-vs-forced race of lines 62-69 is resolved in this history: the
watcher's completion was received, or the timer was received and `Stop` called. -/
def resolved (a : List Event) : Prop :=
  .recvStopped ∈ a ∨ (.recvTimer ∈ a ∧ .stopCalled ∈ a)

instance (a : List Event) : Decidable (resolved a) := by unfold resolved; infer_instance

/-- What must have happened before an event: `pre server w a e` is the condition
on the history `a` under which `Run` performs `e`. -/
def pre (server : MinimalGRPCServer) (w : World) (a : List Event) : Event → Prop
  | .registered i => a = setupTrace i ∧ i < server.serviceRegistrationFuncs.length
  | .listenCalled p ad =>
    a = setupTrace server.serviceRegistrationFuncs.length ∧ p = server.listenProtocol ∧
      ad = listenAddressStr server
  | .goWatcher => signalled a
  | .gracefulStopCalled => signalled a
  | .recvStopped => signalled a
  | .recvTimer => signalled a
  | .log .warn m => m = forcedWarning server w ∧ .recvTimer ∈ a
  | .stopCalled => signalled a ∧ .recvTimer ∈ a
  | .recvResult x => (∃ e, .serveReturned e ∈ a ∧ x = serveResultErr e) ∧ resolved a ∧ signalled a
  | .returned r =>
    match listenOutcome server w with
    | some err =>
      r = some (listenerError server err) ∧
        a = setupTrace server.serviceRegistrationFuncs.length ++
          [.listenCalled server.listenProtocol (listenAddressStr server)]
    | none => ∃ x, .recvResult x ∈ a ∧ r = finalResult x
  | _ => True

/-- Every event of the trace was performed in a history that allows it. -/
def Hist (server : MinimalGRPCServer) (w : World) (t : List Event) : Prop :=
  ∀ a e b, t = a ++ e :: b → pre server w a e
/-- Everything `Run` and its observers can see of a state except which signals
sit unread in the buffer of `termSignalChan`. -/
def observe (s : State) : State :=
  { s with termSignalChan := s.termSignalChan.map (fun _ => []) }

/-- Whether a move is the relay of a signal. -/
def Action.isSignal : Action → Bool
  | .signal _ => true
  | _ => false

/-- A registration function that attaches one named service. -/
def attach (name : String) : GrpcServer → GrpcServer :=
  fun g => ⟨g.services ++ [name]⟩

/-- A configuration used for the concrete runs: port 9000 over tcp, a grace
period of ten seconds, two services. -/
def demoServer : MinimalGRPCServer where
  listenPort := 9000
  listenProtocol := "tcp"
  stopGracePeriod := 10000000000
  serviceRegistrationFuncs := [attach "alpha", attach "beta"]

/-- A world in which the port can be bound; durations are whole seconds. -/
def demoWorld : World where
  listen := fun _ _ => none
  formatDuration := fun d => toString (d / 1000000000) ++ "s"

/-- A world in which the port is taken. -/
def busyWorld : World where
  listen := fun _ _ => some (.base "bind: address already in use")
  formatDuration := fun d => toString (d / 1000000000) ++ "s"

/-- The moves up to the point where the main flow waits for a signal and the
serve goroutine is inside `Serve`. -/
def startSchedule : List Action :=
  [.main, .main, .main, .main, .main, .main, .main, .serve]

/-- A signal while serving, graceful stop completes, `Serve` returns nil. -/
def gracefulSchedule : List Action :=
  startSchedule ++ [.signal .SIGTERM, .main, .main, .main, .watcher, .gracefulStopReturns,
    .selectStopped, .main, .serveReturns none, .main]

/-- A signal while serving; the timer fires while the watcher is inside
`GracefulStop` and the `select` receives it. -/
def timerWonSchedule : List Action :=
  startSchedule ++ [.signal .SIGTERM, .main, .main, .main, .watcher, .timerFires, .selectTimer]

/-- After the timer case: warning, `Stop`, debug event; `GracefulStop` and
`Serve` return; the main flow reads the result. -/
def afterTimerWon : List Action :=
  [.main, .main, .main, .gracefulStopReturns, .serveReturns none, .main]

/-- A signal while serving, the timer fires before graceful stop completes,
`Serve` returns nil after the forced stop. -/
def forcedSchedule : List Action :=
  timerWonSchedule ++ afterTimerWon

/-- A signal while serving, `Serve` then fails, graceful stop completes and the
timer never fires. -/
def gracefulErrSchedule : List Action :=
  startSchedule ++ [.signal .SIGINT, .serveReturns (some (.base "accept: too many open files")),
    .main, .main, .main, .watcher, .gracefulStopReturns, .selectStopped, .main, .main]

/-- `Serve` fails before any signal. -/
def serveFailedSchedule : List Action :=
  startSchedule ++ [.serveReturns (some (.base "accept: too many open files"))]

/-- A signal, then the timer fires while the watcher is inside `GracefulStop`;
forced stop; the main flow reads the result. -/
def forcedTail : List Action :=
  [.signal .SIGQUIT, .main, .main, .main, .watcher, .timerFires, .selectTimer, .main, .main,
    .main, .main]

/-- `Serve` fails before any signal; the signal comes later and the timer fires. -/
def forcedErrSchedule : List Action :=
  serveFailedSchedule ++ forcedTail

/-- `Serve` fails before any signal and no signal comes: the main flow stays
blocked on `termSignalChan`. -/
def earlyExitSchedule : List Action :=
  startSchedule ++ [.serveReturns (some (.base "accept: too many open files")), .main, .main,
    .timerFires, .selectStopped, .main]
/-- The main flow will not receive from `termSignalChan` any more: it is past
line 55 or has returned. -/
def MainPC.pastReceive (m : MainPC) : Bool := m.pastSignal || m.isReturned

/-- The main flow has subscribed, has not yet received from `termSignalChan`,
and a signal sits in the buffer. -/
def waiting (s : State) : Prop :=
  (s.main = .spawningServe ∨ s.main = .awaitingSignal) ∧
    ∃ x rest, s.termSignalChan = some (x :: rest)
/-- A move that brings a run closer to its return: the next statement of the
main flow when it is not blocked, else the move of the environment it is
blocked on (a signal, the timer, `Serve` returning). -/
def advance (s : State) : Action :=
  match s.main with
  | .awaitingSignal =>
    match s.termSignalChan with
    | some (_ :: _) => .main
    | _ => .signal .SIGTERM
  | .selecting =>
    match s.timer with
    | .fired => .selectTimer
    | _ => .timerFires
  | .awaitingResult =>
    match s.serve with
    | .ready => .serve
    | .inServe => .serveReturns none
    | _ => .main
  | _ => .main

/-- A bound on the number of `advance` moves left before `Run` returns. -/
def rank (server : MinimalGRPCServer) (s : State) : Nat :=
  match s.main with
  | .newServer => server.serviceRegistrationFuncs.length + 30
  | .registering i => (server.serviceRegistrationFuncs.length - i) + 29
  | .listening => 28
  | .notifying => 27
  | .spawningServe => 26
  | .awaitingSignal =>
    match s.termSignalChan with
    | some (_ :: _) => 24
    | _ => 25
  | .spawningWatcher => 23
  | .enteringSelect => 22
  | .selecting =>
    match s.timer with
    | .fired => 20
    | _ => 21
  | .gracefulDebug => 19
  | .forcedWarn => 19
  | .forcedStop => 18
  | .forcedDebug => 17
  | .awaitingResult =>
    match s.serve with
    | .ready => 13
    | .inServe => 12
    | _ => 11
  | .returned _ => 0

/-- A signal while serving; the timer fires while the watcher is still inside
`GracefulStop`, and the main flow has not yet taken a case of the `select`. -/
def timerFirstSchedule : List Action :=
  startSchedule ++ [.signal .SIGTERM, .main, .main, .main, .watcher, .timerFires]

/-- `GracefulStop` returns after the timer fired, the `select` takes the
watcher's completion all the same; `Serve` returns nil and `Run` returns. -/
def lateGracefulTail : List Action :=
  [.gracefulStopReturns, .selectStopped, .main, .serveReturns none, .main]

/-- A signal while serving; `GracefulStop` returns while the timer is still
running, and the main flow has not yet taken a case of the `select`. -/
def gracefulFirstSchedule : List Action :=
  startSchedule ++ [.signal .SIGTERM, .main, .main, .main, .watcher, .gracefulStopReturns]

/-- The timer fires after `GracefulStop` returned, the `select` takes the timer
all the same; warning, `Stop`, debug event; `Serve` returns nil and `Run`
returns. -/
def lateTimerTail : List Action :=
  [.timerFires, .selectTimer, .main, .main, .main, .serveReturns none, .main]

@[simp]
theorem serve_spawned_eval :
    ServeState.spawned ServeState.notStarted = false ∧
    ServeState.spawned ServeState.ready = true ∧
    ServeState.spawned ServeState.inServe = true ∧
    (∀ x : Option Err, ServeState.spawned (ServeState.sending x) = true) ∧
    ServeState.spawned ServeState.done = true :=
  ⟨rfl, rfl, rfl, fun _ => rfl, rfl⟩

@[simp]
theorem serve_called_eval :
    ServeState.called ServeState.notStarted = false ∧
    ServeState.called ServeState.ready = false ∧
    ServeState.called ServeState.inServe = true ∧
    (∀ x : Option Err, ServeState.called (ServeState.sending x) = true) ∧
    ServeState.called ServeState.done = true :=
  ⟨rfl, rfl, rfl, fun _ => rfl, rfl⟩

@[simp]
theorem serve_finished_eval :
    ServeState.finished ServeState.notStarted = false ∧
    ServeState.finished ServeState.ready = false ∧
    ServeState.finished ServeState.inServe = false ∧
    (∀ x : Option Err, ServeState.finished (ServeState.sending x) = true) ∧
    ServeState.finished ServeState.done = true :=
  ⟨rfl, rfl, rfl, fun _ => rfl, rfl⟩

@[simp]
theorem serve_isDone_eval :
    ServeState.isDone ServeState.notStarted = false ∧
    ServeState.isDone ServeState.ready = false ∧
    ServeState.isDone ServeState.inServe = false ∧
    (∀ x : Option Err, ServeState.isDone (ServeState.sending x) = false) ∧
    ServeState.isDone ServeState.done = true :=
  ⟨rfl, rfl, rfl, fun _ => rfl, rfl⟩

@[simp]
theorem watcher_spawned_eval :
    WatcherState.spawned WatcherState.notStarted = false ∧
    WatcherState.spawned WatcherState.ready = true ∧
    WatcherState.spawned WatcherState.inGracefulStop = true ∧
    WatcherState.spawned WatcherState.sending = true ∧
    WatcherState.spawned WatcherState.done = true :=
  ⟨rfl, rfl, rfl, rfl, rfl⟩

@[simp]
theorem watcher_called_eval :
    WatcherState.called WatcherState.notStarted = false ∧
    WatcherState.called WatcherState.ready = false ∧
    WatcherState.called WatcherState.inGracefulStop = true ∧
    WatcherState.called WatcherState.sending = true ∧
    WatcherState.called WatcherState.done = true :=
  ⟨rfl, rfl, rfl, rfl, rfl⟩

@[simp]
theorem watcher_finished_eval :
    WatcherState.finished WatcherState.notStarted = false ∧
    WatcherState.finished WatcherState.ready = false ∧
    WatcherState.finished WatcherState.inGracefulStop = false ∧
    WatcherState.finished WatcherState.sending = true ∧
    WatcherState.finished WatcherState.done = true :=
  ⟨rfl, rfl, rfl, rfl, rfl⟩

@[simp]
theorem watcher_isDone_eval :
    WatcherState.isDone WatcherState.notStarted = false ∧
    WatcherState.isDone WatcherState.ready = false ∧
    WatcherState.isDone WatcherState.inGracefulStop = false ∧
    WatcherState.isDone WatcherState.sending = false ∧
    WatcherState.isDone WatcherState.done = true :=
  ⟨rfl, rfl, rfl, rfl, rfl⟩

@[simp]
theorem timer_started_eval :
    TimerState.started TimerState.notStarted = false ∧
    TimerState.started TimerState.running = true ∧
    TimerState.started TimerState.fired = true ∧
    TimerState.started TimerState.received = true :=
  ⟨rfl, rfl, rfl, rfl⟩

@[simp]
theorem timer_isReceived_eval :
    TimerState.isReceived TimerState.notStarted = false ∧
    TimerState.isReceived TimerState.running = false ∧
    TimerState.isReceived TimerState.fired = false ∧
    TimerState.isReceived TimerState.received = true :=
  ⟨rfl, rfl, rfl, rfl⟩

/-- The invariant holds before the first move. -/
theorem inv_init (server : MinimalGRPCServer) (w : World) (h0 : List (List Signal)) :
    Inv server w h0 (init h0) := by
  constructor <;> simp [init, ctrlOK, setupOK, summary, expected, MainPC.pastSignal, MainPC.pastWarn,
    MainPC.pastStop, MainPC.pastBranch, MainPC.isReturned]

/-- The summary of a trace is additive. -/
theorem summary_append (server : MinimalGRPCServer) (w : World) (t u : List Event) :
    summary server w (t ++ u) = (summary server w t).add (summary server w u) := by
  simp [summary, Summary.add, List.count_append, List.countP_append]

theorem applied_succ (server : MinimalGRPCServer) (i : Nat) (f : GrpcServer → GrpcServer)
    (hf : server.serviceRegistrationFuncs[i]? = some f) :
    applied server (i + 1) = f (applied server i) := by
  simp [applied, List.take_succ, hf, List.foldl_append]

theorem setupTrace_succ (i : Nat) : setupTrace (i + 1) = setupTrace i ++ [.registered i] := by
  simp [setupTrace, List.range_succ]

/-- Every statement of the main flow keeps the invariant. -/
theorem inv_nextMain {server : MinimalGRPCServer} {w : World} {h0 : List (List Signal)}
    {s t : State} (hinv : Inv server w h0 s) (h : nextMain server w s = some t) :
    Inv server w h0 t := by
  obtain ⟨main, serve, watcher, timer, chan, handlers, srv, trace⟩ := s
  obtain ⟨c1, c2, c3, c4, c5, c6, c7⟩ := hinv
  dsimp only at c1 c2 c3 c4 c5 c6 c7
  cases main 
  case registering i =>
    simp only [nextMain] at h
    simp only [ctrlOK] at c1
    simp only [setupOK] at c2
    cases hf : server.serviceRegistrationFuncs[i]? with
    | none =>
      rw [hf] at h
      simp only [Option.some.injEq] at h
      subst h
      have hi : i = server.serviceRegistrationFuncs.length :=
        Nat.le_antisymm c2.1 (List.getElem?_eq_none_iff.mp hf)
      subst hi
      refine ⟨?_, ?_, ?_, ?_, ?_, ?_, ?_⟩ <;> dsimp only
      · simpa [ctrlOK] using c1
      · simpa [setupOK] using c2.2
      · simpa using c3
      · simpa using c4
      · rw [c5]; simp [expected, MainPC.pastSignal, MainPC.pastWarn, MainPC.pastStop,
          MainPC.pastBranch, MainPC.isReturned]
      · simp
      · simpa using c7
    | some f =>
      rw [hf] at h
      simp only [Option.some.injEq] at h
      subst h
      have hi : i < server.serviceRegistrationFuncs.length := by
        rcases Nat.lt_or_ge i server.serviceRegistrationFuncs.length with h | h
        · exact h
        · rw [List.getElem?_eq_none_iff.mpr h] at hf; cases hf
      refine ⟨?_, ?_, ?_, ?_, ?_, ?_, ?_⟩ <;> dsimp only
      · simpa [ctrlOK] using c1
      · simp only [setupOK]
        exact ⟨hi, by rw [setupTrace_succ, c2.2.1], by rw [applied_succ server i f hf, c2.2.2]⟩
      · simpa using c3
      · simpa using c4
      · rw [summary_append, c5]
        simp [expected, Summary.add, summary, c1, Event.isServeReturned, Event.isRecvResult,
        Event.isRecvSignal, Event.isWarn, Event.isReturned, MainPC.pastSignal, MainPC.pastWarn,
        MainPC.pastStop, MainPC.pastBranch, MainPC.isReturned]
      · simp
      · simpa using c7
  case listening =>
    simp only [nextMain] at h
    simp only [ctrlOK] at c1
    simp only [setupOK] at c2
    cases hl : w.listen server.listenProtocol (listenAddressStr server) with
    | none =>
      rw [hl] at h
      simp only [Option.some.injEq] at h
      subst h
      refine ⟨?_, ?_, ?_, ?_, ?_, ?_, ?_⟩ <;> dsimp only
      · simpa [ctrlOK, listenOutcome, hl] using c1
      · simpa [setupOK] using c2.2
      · simpa using c3
      · simpa using c4
      · rw [summary_append, c5]
        simp [expected, Summary.add, summary, c1, Event.isServeReturned, Event.isRecvResult,
        Event.isRecvSignal, Event.isWarn, Event.isReturned, MainPC.pastSignal, MainPC.pastWarn,
        MainPC.pastStop, MainPC.pastBranch, MainPC.isReturned]
      · simp
      · simpa using c7
    | some err =>
      rw [hl] at h
      simp only [Option.some.injEq] at h
      subst h
      refine ⟨?_, ?_, ?_, ?_, ?_, ?_, ?_⟩ <;> dsimp only
      · simpa [ctrlOK, listenOutcome, hl] using c1
      · simpa [setupOK] using c2.2
      · simpa using c3
      · simpa using c4
      · rw [summary_append, c5]
        simp [expected, Summary.add, summary, c1, Event.isServeReturned, Event.isRecvResult,
        Event.isRecvSignal, Event.isWarn, Event.isReturned, MainPC.pastSignal, MainPC.pastWarn,
        MainPC.pastStop, MainPC.pastBranch, MainPC.isReturned]
      · simp
      · simpa using c7
  case awaitingSignal =>
    simp only [nextMain] at h
    simp only [ctrlOK] at c1
    simp only [setupOK] at c2
    rcases chan with _ | (_ | ⟨sig, rest⟩) <;> simp only [Option.some.injEq, reduceCtorEq] at h
    subst h
    refine ⟨?_, ?_, ?_, ?_, ?_, ?_, ?_⟩ <;> dsimp only
    · simpa [ctrlOK] using c1
    · simpa [setupOK] using c2
    · simpa using c3
    · intro buf hb
      cases hb
      exact Nat.le_of_succ_le (c4 _ rfl)
    · rw [summary_append, c5]
      simp [expected, Summary.add, summary, c1, Event.isServeReturned, Event.isRecvResult,
        Event.isRecvSignal, Event.isWarn, Event.isReturned, MainPC.pastSignal, MainPC.pastWarn,
        MainPC.pastStop, MainPC.pastBranch, MainPC.isReturned]
    · simp
    · intro x hx
      obtain ⟨e, h1, h2⟩ := c7 x hx
      exact ⟨e, h1, by simp [h2]⟩
  case awaitingResult =>
    simp only [nextMain] at h
    simp only [ctrlOK] at c1
    simp only [setupOK] at c2
    cases serve <;> simp only [Option.some.injEq, reduceCtorEq] at h
    subst h
    refine ⟨?_, ?_, ?_, ?_, ?_, ?_, ?_⟩ <;> dsimp only
    · simp only [ctrlOK]
      right
      simpa using c1
    · simpa [setupOK] using c2
    · simpa using c3
    · simpa using c4
    · rw [summary_append, c5]
      simp [expected, Summary.add, summary, c1, Event.isServeReturned, Event.isRecvResult,
        Event.isRecvSignal, Event.isWarn, Event.isReturned, MainPC.pastSignal, MainPC.pastWarn,
        MainPC.pastStop, MainPC.pastBranch, MainPC.isReturned]
    · simp
    · simp
  case selecting => simp [nextMain] at h
  case returned r => simp [nextMain] at h
  all_goals
    simp only [nextMain, Option.some.injEq] at h
    subst h
    simp only [ctrlOK] at c1
    simp only [setupOK] at c2
    refine ⟨?_, ?_, ?_, ?_, ?_, ?_, ?_⟩ <;> dsimp only
    · simp_all [ctrlOK]
    · simp_all [setupOK, setupTrace, applied]
    · simp_all
    · simp_all [termSignalChanCap]
    · rw [summary_append, c5]
      simp [expected, Summary.add, summary, c1, Event.isServeReturned, Event.isRecvResult,
        Event.isRecvSignal, Event.isWarn, Event.isReturned, MainPC.pastSignal, MainPC.pastWarn,
        MainPC.pastStop, MainPC.pastBranch, MainPC.isReturned]
    · simp
    · intro x hx
      first
        | (cases hx; done)
        | (obtain ⟨e, h1, h2⟩ := c7 x hx
           exact ⟨e, h1, by simp [h2]⟩)

/-- Every move keeps the invariant. -/
theorem inv_next {server : MinimalGRPCServer} {w : World} {h0 : List (List Signal)}
    {s t : State} (a : Action) (hinv : Inv server w h0 s) (h : next server w s a = some t) :
    Inv server w h0 t := by
  cases a
  case main => exact inv_nextMain hinv h
  case signal sig =>
    obtain ⟨main, serve, watcher, timer, chan, handlers, srv, trace⟩ := s
    obtain ⟨c1, c2, c3, c4, c5, c6, c7⟩ := hinv
    dsimp only at c1 c2 c3 c4 c5 c6 c7
    simp only [next] at h
    cases chan with
    | none => simp at h
    | some buf =>
      simp only at h
      split at h
      · split at h
        · rename_i hlt
          simp only [Option.some.injEq] at h
          subst h
          refine ⟨?_, ?_, ?_, ?_, ?_, ?_, ?_⟩ <;> dsimp only
          · cases main <;> simp_all [ctrlOK]
          · cases main <;> simp_all [setupOK, ctrlOK]
          · simpa using c3
          · intro b hb
            cases hb
            simp [termSignalChanCap] at hlt ⊢
            simp [hlt]
          · rw [c5]; simp [expected]
          · exact c6
          · exact c7
        · simp only [Option.some.injEq] at h
          subst h
          exact ⟨c1, c2, c3, c4, c5, c6, c7⟩
      · simp at h
  case timerFires =>
    obtain ⟨main, serve, watcher, timer, chan, handlers, srv, trace⟩ := s
    obtain ⟨c1, c2, c3, c4, c5, c6, c7⟩ := hinv
    dsimp only at c1 c2 c3 c4 c5 c6 c7
    simp only [next] at h
    cases timer <;> simp only [Option.some.injEq, reduceCtorEq] at h
    subst h
    refine ⟨?_, ?_, ?_, ?_, ?_, ?_, ?_⟩ <;> dsimp only
    · cases main <;> simp_all [ctrlOK]
    · cases main <;> simp_all [setupOK, ctrlOK]
    · exact c3
    · exact c4
    · rw [c5]; simp [expected]
    · exact c6
    · exact c7
  case selectStopped =>
    obtain ⟨main, serve, watcher, timer, chan, handlers, srv, trace⟩ := s
    obtain ⟨c1, c2, c3, c4, c5, c6, c7⟩ := hinv
    dsimp only at c1 c2 c3 c4 c5 c6 c7
    simp only [next] at h
    cases main <;> cases watcher <;> simp only [Option.some.injEq, reduceCtorEq] at h
    subst h
    simp only [ctrlOK] at c1
    refine ⟨?_, ?_, ?_, ?_, ?_, ?_, ?_⟩ <;> dsimp only
    · simp_all [ctrlOK]
    · simp_all [setupOK]
    · exact c3
    · exact c4
    · rw [summary_append, c5]
      simp [expected, Summary.add, summary, c1, Event.isServeReturned, Event.isRecvResult,
        Event.isRecvSignal, Event.isWarn, Event.isReturned, MainPC.pastSignal, MainPC.pastWarn,
        MainPC.pastStop, MainPC.pastBranch, MainPC.isReturned]
    · simp
    · intro x hx
      obtain ⟨e, h1, h2⟩ := c7 x hx
      exact ⟨e, h1, by simp [h2]⟩
  case selectTimer =>
    obtain ⟨main, serve, watcher, timer, chan, handlers, srv, trace⟩ := s
    obtain ⟨c1, c2, c3, c4, c5, c6, c7⟩ := hinv
    dsimp only at c1 c2 c3 c4 c5 c6 c7
    simp only [next] at h
    cases main <;> cases timer <;> simp only [Option.some.injEq, reduceCtorEq] at h
    subst h
    simp only [ctrlOK] at c1
    refine ⟨?_, ?_, ?_, ?_, ?_, ?_, ?_⟩ <;> dsimp only
    · simp_all [ctrlOK]
    · simp_all [setupOK]
    · exact c3
    · exact c4
    · rw [summary_append, c5]
      simp [expected, Summary.add, summary, c1, Event.isServeReturned, Event.isRecvResult,
        Event.isRecvSignal, Event.isWarn, Event.isReturned, MainPC.pastSignal, MainPC.pastWarn,
        MainPC.pastStop, MainPC.pastBranch, MainPC.isReturned]
    · simp
    · intro x hx
      obtain ⟨e, h1, h2⟩ := c7 x hx
      exact ⟨e, h1, by simp [h2]⟩
  case serve =>
    obtain ⟨main, serve, watcher, timer, chan, handlers, srv, trace⟩ := s
    obtain ⟨c1, c2, c3, c4, c5, c6, c7⟩ := hinv
    dsimp only at c1 c2 c3 c4 c5 c6 c7
    simp only [next] at h
    cases serve <;> simp only [Option.some.injEq, reduceCtorEq] at h
    subst h
    refine ⟨?_, ?_, ?_, ?_, ?_, ?_, ?_⟩ <;> dsimp only
    · cases main <;> simp_all [ctrlOK]
    · cases main <;> simp_all [setupOK, ctrlOK]
    · exact c3
    · exact c4
    · rw [summary_append, c5]
      simp [expected, Summary.add, summary, Event.isServeReturned, Event.isRecvResult,
        Event.isRecvSignal, Event.isWarn, Event.isReturned]
    · intro r hr
      simp [c6 r hr]
    · simp
  case serveReturns err =>
    obtain ⟨main, serve, watcher, timer, chan, handlers, srv, trace⟩ := s
    obtain ⟨c1, c2, c3, c4, c5, c6, c7⟩ := hinv
    dsimp only at c1 c2 c3 c4 c5 c6 c7
    simp only [next] at h
    cases serve <;> simp only [Option.some.injEq, reduceCtorEq] at h
    subst h
    refine ⟨?_, ?_, ?_, ?_, ?_, ?_, ?_⟩ <;> dsimp only
    · cases main <;> simp_all [ctrlOK]
    · cases main <;> simp_all [setupOK, ctrlOK]
    · exact c3
    · exact c4
    · rw [summary_append, c5]
      simp [expected, Summary.add, summary, Event.isServeReturned, Event.isRecvResult,
        Event.isRecvSignal, Event.isWarn, Event.isReturned]
    · intro r hr
      simp [c6 r hr]
    · intro x hx
      cases hx
      exact ⟨err, rfl, by simp⟩
  case watcher =>
    obtain ⟨main, serve, watcher, timer, chan, handlers, srv, trace⟩ := s
    obtain ⟨c1, c2, c3, c4, c5, c6, c7⟩ := hinv
    dsimp only at c1 c2 c3 c4 c5 c6 c7
    simp only [next] at h
    cases watcher <;> simp only [Option.some.injEq, reduceCtorEq] at h
    subst h
    refine ⟨?_, ?_, ?_, ?_, ?_, ?_, ?_⟩ <;> dsimp only
    · cases main <;> simp_all [ctrlOK]
    · cases main <;> simp_all [setupOK, ctrlOK]
    · exact c3
    · exact c4
    · rw [summary_append, c5]
      simp [expected, Summary.add, summary, Event.isServeReturned, Event.isRecvResult,
        Event.isRecvSignal, Event.isWarn, Event.isReturned]
    · intro r hr
      simp [c6 r hr]
    · intro x hx
      obtain ⟨e, h1, h2⟩ := c7 x hx
      exact ⟨e, h1, by simp [h2]⟩
  case gracefulStopReturns =>
    obtain ⟨main, serve, watcher, timer, chan, handlers, srv, trace⟩ := s
    obtain ⟨c1, c2, c3, c4, c5, c6, c7⟩ := hinv
    dsimp only at c1 c2 c3 c4 c5 c6 c7
    simp only [next] at h
    cases watcher <;> simp only [Option.some.injEq, reduceCtorEq] at h
    subst h
    refine ⟨?_, ?_, ?_, ?_, ?_, ?_, ?_⟩ <;> dsimp only
    · cases main <;> simp_all [ctrlOK]
    · cases main <;> simp_all [setupOK, ctrlOK]
    · exact c3
    · exact c4
    · rw [summary_append, c5]
      simp [expected, Summary.add, summary, Event.isServeReturned, Event.isRecvResult,
        Event.isRecvSignal, Event.isWarn, Event.isReturned]
    · intro r hr
      simp [c6 r hr]
    · intro x hx
      obtain ⟨e, h1, h2⟩ := c7 x hx
      exact ⟨e, h1, by simp [h2]⟩

theorem inv_step {server : MinimalGRPCServer} {w : World} {h0 : List (List Signal)}
    {s : State} (a : Action) (hinv : Inv server w h0 s) : Inv server w h0 (step server w s a) := by
  unfold step
  cases h : next server w s a with
  | none => simpa using hinv
  | some t => simpa using inv_next a hinv h

theorem inv_exec {server : MinimalGRPCServer} {w : World} {h0 : List (List Signal)}
    (sched : List Action) : ∀ {s : State}, Inv server w h0 s → Inv server w h0 (exec server w s sched) := by
  induction sched with
  | nil => intro s h; exact h
  | cons a rest ih => intro s h; exact ih (inv_step a h)

/-- The invariant holds in every state of every schedule of `Run`. -/
theorem inv_Run (server : MinimalGRPCServer) (w : World) (h0 : List (List Signal))
    (sched : List Action) : Inv server w h0 (Run server w h0 sched) :=
  inv_exec sched (inv_init server w h0)

theorem hist_nil (server : MinimalGRPCServer) (w : World) : Hist server w [] := by
  intro a e b h
  simp at h

/-- A trace stays well-ordered when an event allowed by its history is added. -/
theorem hist_snoc {server : MinimalGRPCServer} {w : World} {t : List Event} {e : Event}
    (ht : Hist server w t) (he : pre server w t e) : Hist server w (t ++ [e]) := by
  intro a x b h
  rcases List.eq_nil_or_concat b with hb | ⟨b1, y, hb⟩
  · subst hb
    obtain ⟨h1, h2⟩ := List.append_inj' h rfl
    simp only [List.cons.injEq, and_true] at h2
    subst h1 h2
    exact he
  · subst hb
    rw [List.concat_eq_append, ← List.cons_append, ← List.append_assoc] at h
    obtain ⟨h1, _⟩ := List.append_inj' h rfl
    exact ht a x b1 h1

theorem signalled_of_count {t : List Event} (h : t.countP Event.isRecvSignal = 1) :
    signalled t := by
  have hp : 0 < t.countP Event.isRecvSignal := by omega
  obtain ⟨x, hx, hx2⟩ := List.countP_pos_iff.mp hp
  exact List.any_eq_true.mpr ⟨x, hx, hx2⟩

theorem mem_of_count {t : List Event} {e : Event} (h : t.count e = 1) : e ∈ t :=
  List.count_pos_iff.mp (by omega)

/-- Every statement of the main flow performs only events its history allows. -/
theorem hist_nextMain {server : MinimalGRPCServer} {w : World} {h0 : List (List Signal)}
    {s t : State} (hinv : Inv server w h0 s) (hh : Hist server w s.trace)
    (h : nextMain server w s = some t) : Hist server w t.trace := by
  obtain ⟨main, serve, watcher, timer, chan, handlers, srv, trace⟩ := s
  obtain ⟨c1, c2, c3, c4, c5, c6, c7⟩ := hinv
  dsimp only at c1 c2 c3 c4 c5 c6 c7 hh
  have k1 := congrArg Summary.recvSignal c5
  have k2 := congrArg Summary.recvTimer c5
  have k3 := congrArg Summary.recvStopped c5
  have k4 := congrArg Summary.stop c5
  simp only [summary, expected] at k1 k2 k3 k4
  clear c5
  cases main
  case registering i =>
    simp only [nextMain] at h
    simp only [setupOK] at c2
    cases hf : server.serviceRegistrationFuncs[i]? with
    | none =>
      rw [hf] at h
      simp only [Option.some.injEq] at h
      subst h
      exact hh
    | some f =>
      rw [hf] at h
      simp only [Option.some.injEq] at h
      subst h
      have hi : i < server.serviceRegistrationFuncs.length := by
        rcases Nat.lt_or_ge i server.serviceRegistrationFuncs.length with h | h
        · exact h
        · rw [List.getElem?_eq_none_iff.mpr h] at hf; cases hf
      exact hist_snoc hh ⟨c2.2.1, hi⟩
  case listening =>
    simp only [nextMain] at h
    simp only [setupOK] at c2
    cases hl : w.listen server.listenProtocol (listenAddressStr server) with
    | none =>
      rw [hl] at h
      simp only [Option.some.injEq] at h
      subst h
      exact hist_snoc hh ⟨c2.1, rfl, rfl⟩
    | some err =>
      rw [hl] at h
      simp only [Option.some.injEq] at h
      subst h
      have e1 : trace ++ [Event.listenCalled server.listenProtocol (listenAddressStr server),
          Event.returned (some (listenerError server err))] =
          (trace ++ [Event.listenCalled server.listenProtocol (listenAddressStr server)]) ++
            [Event.returned (some (listenerError server err))] := by simp
      dsimp only
      rw [e1]
      refine hist_snoc (hist_snoc hh ⟨c2.1, rfl, rfl⟩) ?_
      simp [pre, listenOutcome, hl, c2.1]
  case awaitingSignal =>
    simp only [nextMain] at h
    rcases chan with _ | (_ | ⟨sig, rest⟩) <;> simp only [Option.some.injEq, reduceCtorEq] at h
    subst h
    exact hist_snoc hh trivial
  case awaitingResult =>
    simp only [nextMain] at h
    simp only [ctrlOK] at c1
    cases serve <;> simp only [Option.some.injEq, reduceCtorEq] at h
    rename_i x
    subst h
    obtain ⟨e, h1, h2⟩ := c7 x rfl
    have hsig : signalled trace := signalled_of_count (by simpa [MainPC.pastSignal] using k1)
    have hres : resolved trace := by
      obtain ⟨_, _, _, _, hb, _⟩ := c1
      cases hd : watcher.isDone
      · have ht : timer.isReceived = true := by
          cases hr : timer.isReceived
          · rw [hd, hr] at hb; simp at hb
          · rfl
        right
        exact ⟨mem_of_count (by simpa [ht] using k2),
          mem_of_count (by simpa [ht, MainPC.pastStop] using k4)⟩
      · left
        exact mem_of_count (by simpa [hd] using k3)
    have e1 : trace ++ [Event.recvResult x, Event.returned (finalResult x)] =
        (trace ++ [Event.recvResult x]) ++ [Event.returned (finalResult x)] := by simp
    dsimp only
    rw [e1]
    refine hist_snoc (hist_snoc hh ⟨⟨e, h2, h1⟩, hres, hsig⟩) ?_
    simp only [pre, c1.2.2.2.2.2.2]
    exact ⟨x, by simp, rfl⟩
  case selecting => simp [nextMain] at h
  case returned r => simp [nextMain] at h
  all_goals
    simp only [nextMain, Option.some.injEq] at h
    subst h
    simp only [ctrlOK] at c1
    refine hist_snoc hh ?_
    first
      | exact trivial
      | exact signalled_of_count (by simpa [MainPC.pastSignal] using k1)
      | exact ⟨rfl, mem_of_count (by simpa [c1] using k2)⟩
      | exact ⟨signalled_of_count (by simpa [MainPC.pastSignal] using k1),
          mem_of_count (by simpa [c1] using k2)⟩

/-- Every move performs only events its history allows. -/
theorem hist_next {server : MinimalGRPCServer} {w : World} {h0 : List (List Signal)}
    {s t : State} (a : Action) (hinv : Inv server w h0 s) (hh : Hist server w s.trace)
    (h : next server w s a = some t) : Hist server w t.trace := by
  cases a
  case main => exact hist_nextMain hinv hh h
  all_goals
    obtain ⟨main, serve, watcher, timer, chan, handlers, srv, trace⟩ := s
    obtain ⟨c1, c2, c3, c4, c5, c6, c7⟩ := hinv
    dsimp only at c1 c2 c3 c4 c5 c6 c7 hh
    have k1 := congrArg Summary.recvSignal c5
    simp only [summary, expected] at k1
    simp only [next] at h
  case signal sig =>
    cases chan with
    | none => simp at h
    | some buf =>
      simp only at h
      split at h
      · split at h <;> (simp only [Option.some.injEq] at h; subst h; exact hh)
      · simp at h
  case timerFires =>
    cases timer <;> simp only [Option.some.injEq, reduceCtorEq] at h
    subst h
    exact hh
  case selectStopped =>
    cases main <;> cases watcher <;> simp only [Option.some.injEq, reduceCtorEq] at h
    subst h
    exact hist_snoc hh (signalled_of_count (by simpa [MainPC.pastSignal] using k1))
  case selectTimer =>
    cases main <;> cases timer <;> simp only [Option.some.injEq, reduceCtorEq] at h
    subst h
    exact hist_snoc hh (signalled_of_count (by simpa [MainPC.pastSignal] using k1))
  case serve =>
    cases serve <;> simp only [Option.some.injEq, reduceCtorEq] at h
    subst h
    exact hist_snoc hh trivial
  case serveReturns err =>
    cases serve <;> simp only [Option.some.injEq, reduceCtorEq] at h
    subst h
    exact hist_snoc hh trivial
  case watcher =>
    cases watcher <;> simp only [Option.some.injEq, reduceCtorEq] at h
    subst h
    exact hist_snoc hh (signalled_of_count (by simpa using k1))
  case gracefulStopReturns =>
    cases watcher <;> simp only [Option.some.injEq, reduceCtorEq] at h
    subst h
    exact hist_snoc hh trivial

theorem hist_exec {server : MinimalGRPCServer} {w : World} {h0 : List (List Signal)}
    (sched : List Action) : ∀ {s : State}, Inv server w h0 s → Hist server w s.trace →
      Hist server w (exec server w s sched).trace := by
  induction sched with
  | nil => intro s _ h; exact h
  | cons a rest ih =>
    intro s hinv hh
    refine ih (inv_step a hinv) ?_
    unfold step
    cases h : next server w s a with
    | none => simpa using hh
    | some t => simpa using hist_next a hinv hh h

/-- In every schedule of `Run` every event was performed in a history that
allows it. -/
theorem hist_Run (server : MinimalGRPCServer) (w : World) (h0 : List (List Signal))
    (sched : List Action) : Hist server w (Run server w h0 sched).trace :=
  hist_exec sched (inv_init server w h0) (hist_nil server w)

theorem unique_of_countP_le_one {α : Type} {p : α → Bool} :
    ∀ {l : List α}, l.countP p ≤ 1 → ∀ {x y : α}, x ∈ l → y ∈ l → p x = true → p y = true → x = y := by
  intro l
  induction l with
  | nil => intro _ x y hx; simp at hx
  | cons a l ih =>
    intro h x y hx hy px py
    rw [List.countP_cons] at h
    rcases List.mem_cons.mp hx with hxa | hxl
    · rcases List.mem_cons.mp hy with hya | hyl
      · rw [hxa, hya]
      · rw [hxa] at px
        rw [if_pos px] at h
        have h0 : l.countP p = 0 := by omega
        exact absurd py (List.countP_eq_zero.mp h0 y hyl)
    · rcases List.mem_cons.mp hy with hya | hyl
      · rw [hya] at py
        rw [if_pos py] at h
        have h0 : l.countP p = 0 := by omega
        exact absurd px (List.countP_eq_zero.mp h0 x hxl)
      · exact ih (by omega) hxl hyl px py

theorem exec_append (server : MinimalGRPCServer) (w : World) (s : State) (p q : List Action) :
    exec server w s (p ++ q) = exec server w (exec server w s p) q := by
  simp [exec, List.foldl_append]

theorem Run_append (server : MinimalGRPCServer) (w : World) (h0 : List (List Signal))
    (p q : List Action) :
    Run server w h0 (p ++ q) = exec server w (Run server w h0 p) q :=
  exec_append server w (init h0) p q

theorem signalled_mono {a b : List Event} (h : signalled a) (hab : ∀ e ∈ a, e ∈ b) :
    signalled b := by
  obtain ⟨x, hx, hp⟩ := List.any_eq_true.mp h
  exact List.any_eq_true.mpr ⟨x, hab x hx, hp⟩

theorem resolved_mono {a b : List Event} (h : resolved a) (hab : ∀ e ∈ a, e ∈ b) :
    resolved b := by
  rcases h with h | ⟨h1, h2⟩
  · exact Or.inl (hab _ h)
  · exact Or.inr ⟨hab _ h1, hab _ h2⟩

theorem finalResult_eq_none (e : Option Err) : finalResult (serveResultErr e) = none ↔ e = none := by
  cases e <;> simp [finalResult, serveResultErr]

/-- The serve loop returns at most once, so its outcome is unique in the trace. -/
theorem serveReturned_unique {server : MinimalGRPCServer} {w : World} {h0 : List (List Signal)}
    {s : State} (hinv : Inv server w h0 s) {e1 e2 : Option Err}
    (h1 : .serveReturned e1 ∈ s.trace) (h2 : .serveReturned e2 ∈ s.trace) : e1 = e2 := by
  have hc := congrArg Summary.serveReturned hinv.counts
  simp only [summary, expected] at hc
  have hle : s.trace.countP Event.isServeReturned ≤ 1 := by
    rw [hc]; unfold b2n; split <;> omega
  have := unique_of_countP_le_one hle h1 h2 rfl rfl
  simpa using this

/-- What a return of `Run` after a successful bind rests on: the value received
from the serve goroutine, itself received after the race was resolved, after a
signal. -/
theorem return_bound {server : MinimalGRPCServer} {w : World} {h0 : List (List Signal)}
    {s : State} (hinv : Inv server w h0 s) (hh : Hist server w s.trace)
    (hl : listenOutcome server w = none) {r : Option Err} (hret : s.main = .returned r) :
    ∃ a b e, s.trace = a ++ .returned r :: b ∧ r = finalResult (serveResultErr e) ∧
      .serveReturned e ∈ a ∧ .recvResult (serveResultErr e) ∈ a ∧ resolved a ∧ signalled a := by
  obtain ⟨a, b, hab⟩ := List.append_of_mem (hinv.ret_link r hret)
  have hp := hh a (.returned r) b hab
  simp only [pre, hl] at hp
  obtain ⟨x, hx, hr⟩ := hp
  obtain ⟨a1, b1, ha1⟩ := List.append_of_mem hx
  have hp2 := hh a1 (.recvResult x) (b1 ++ .returned r :: b) (by rw [hab, ha1]; simp)
  simp only [pre] at hp2
  obtain ⟨⟨e, he, hxe⟩, hres, hsig⟩ := hp2
  have hsub : ∀ ev ∈ a1, ev ∈ a := by
    intro ev hev
    rw [ha1]
    exact List.mem_append_left _ hev
  subst hxe
  exact ⟨a, b, e, hab, hr, hsub _ he, hx, resolved_mono hres hsub, signalled_mono hsig hsub⟩

/-- What a return of `Run` after a failed bind rests on. -/
theorem return_unbound {server : MinimalGRPCServer} {w : World} {h0 : List (List Signal)}
    {s : State} (hinv : Inv server w h0 s) (hh : Hist server w s.trace)
    {err : Err} (hl : listenOutcome server w = some err) {r : Option Err}
    (hret : s.main = .returned r) : r = some (listenerError server err) := by
  obtain ⟨a, b, hab⟩ := List.append_of_mem (hinv.ret_link r hret)
  have hp := hh a (.returned r) b hab
  simp only [pre, hl] at hp
  exact hp.1

/-- Every `advance` move of a run that has not returned lowers its rank. -/
theorem rank_advance {server : MinimalGRPCServer} {w : World} {h0 : List (List Signal)}
    {s : State} (hinv : Inv server w h0 s) (hret : s.main.isReturned = false) :
    rank server (step server w s (advance s)) < rank server s := by
  obtain ⟨main, serve, watcher, timer, chan, handlers, srv, trace⟩ := s
  have c1 := hinv.ctrl
  cases main <;> simp only [ctrlOK] at c1
  case returned r => simp [MainPC.isReturned] at hret
  case registering i =>
    cases hf : server.serviceRegistrationFuncs[i]? with
    | none => simp [advance, rank, step, next, nextMain, hf]
    | some f =>
      have hi : i < server.serviceRegistrationFuncs.length := by
        rcases Nat.lt_or_ge i server.serviceRegistrationFuncs.length with h | h
        · exact h
        · rw [List.getElem?_eq_none_iff.mpr h] at hf; cases hf
      simp only [advance, rank, step, next, nextMain, hf, Option.getD]
      omega
  case listening =>
    cases hl : w.listen server.listenProtocol (listenAddressStr server) <;>
      simp [advance, rank, step, next, nextMain, hl]
  case awaitingSignal =>
    rcases chan with _ | (_ | ⟨x, rest⟩)
    · simp at c1
    · simp [advance, rank, step, next, nextMain, notifySignals, termSignalChanCap]
    · simp [advance, rank, step, next, nextMain]
  case spawningServe =>
    rcases chan with _ | (_ | ⟨x, rest⟩) <;> simp [advance, rank, step, next, nextMain]
  case selecting =>
    cases timer <;> simp at c1 <;> simp [advance, rank, step, next, nextMain]
  case awaitingResult =>
    cases serve <;> simp at c1 <;> simp [advance, rank, step, next, nextMain]
  case gracefulDebug => cases serve <;> simp [advance, rank, step, next, nextMain]
  case forcedDebug => cases serve <;> simp [advance, rank, step, next, nextMain]
  all_goals simp [advance, rank, step, next, nextMain]

/-- `Run` never gets stuck by itself: every state of a run has a continuation
(signals arriving, the timer firing, `Serve` returning, the main flow running)
in which `Run` returns. -/
theorem can_return {server : MinimalGRPCServer} {w : World} {h0 : List (List Signal)} :
    ∀ (n : Nat) (s : State), rank server s ≤ n → Inv server w h0 s →
      ∃ ext, (exec server w s ext).main.isReturned = true := by
  intro n
  induction n with
  | zero =>
    intro s hr hinv
    cases hret : s.main.isReturned
    · have := rank_advance hinv hret
      omega
    · exact ⟨[], hret⟩
  | succ n ih =>
    intro s hr hinv
    cases hret : s.main.isReturned
    · have hlt := rank_advance hinv hret
      obtain ⟨ext, hext⟩ := ih (step server w s (advance s)) (by omega) (inv_step _ hinv)
      exact ⟨advance s :: ext, hext⟩
    · exact ⟨[], hret⟩

/-- Every schedule of `Run` can be continued to a return. -/
theorem run_can_return (server : MinimalGRPCServer) (w : World) (h0 : List (List Signal))
    (sched : List Action) :
    ∃ ext r, (Run server w h0 (sched ++ ext)).main = .returned r := by
  obtain ⟨ext, hext⟩ := can_return (rank server (Run server w h0 sched)) _ (Nat.le_refl _)
    (inv_Run server w h0 sched)
  refine ⟨ext, ?_⟩
  rw [Run_append]
  cases hm : (exec server w (Run server w h0 sched) ext).main <;> rw [hm] at hext <;>
    simp [MainPC.isReturned] at hext
  exact ⟨_, rfl⟩

/-- The trace only grows. -/
theorem trace_step (server : MinimalGRPCServer) (w : World) (s : State) (a : Action) :
    ∀ e ∈ s.trace, e ∈ (step server w s a).trace := by
  intro e he
  unfold step
  cases hn : next server w s a with
  | none => exact he
  | some t =>
    simp only [Option.getD]
    obtain ⟨main, serve, watcher, timer, chan, handlers, srv, trace⟩ := s
    cases a <;> simp only [next, nextMain] at hn
    case signal sig =>
      cases chan with
      | none => simp at hn
      | some buf =>
        simp only at hn
        split at hn
        · split at hn <;> (cases hn; exact he)
        · simp at hn
    case main =>
      cases main <;> simp only [reduceCtorEq] at hn
      case registering i =>
        split at hn <;> (cases hn; first | exact he | exact List.mem_append_left _ he)
      case listening =>
        split at hn <;> (cases hn; exact List.mem_append_left _ he)
      case awaitingSignal =>
        split at hn
        · cases hn; exact List.mem_append_left _ he
        · simp at hn
      case awaitingResult =>
        split at hn
        · cases hn; exact List.mem_append_left _ he
        · simp at hn
      all_goals (cases hn; exact List.mem_append_left _ he)
    case timerFires =>
      split at hn
      · cases hn; exact he
      · simp at hn
    all_goals
      split at hn
      · cases hn; exact List.mem_append_left _ he
      · simp at hn

theorem trace_exec (server : MinimalGRPCServer) (w : World) (ext : List Action) :
    ∀ (s : State), ∀ e ∈ s.trace, e ∈ (exec server w s ext).trace := by
  induction ext with
  | nil => intro s e he; exact he
  | cons a rest ih => intro s e he; exact ih _ e (trace_step server w s a e he)

theorem trace_Run_append (server : MinimalGRPCServer) (w : World) (h0 : List (List Signal))
    (sched ext : List Action) :
    ∀ e ∈ (Run server w h0 sched).trace, e ∈ (Run server w h0 (sched ++ ext)).trace := by
  intro e he
  rw [Run_append]
  exact trace_exec server w ext _ e he

/-- What a nil result means: the history of the return holds a bound listener,
a serve loop that returned no error and a resolved race. -/
theorem returned_nil_iff (server : MinimalGRPCServer) (w : World) (h0 : List (List Signal))
    (sched : List Action) (r : Option Err)
    (hret : (Run server w h0 sched).main = .returned r) :
    ∃ a b, (Run server w h0 sched).trace = a ++ .returned r :: b ∧
      (r = none ↔
        (listenOutcome server w = none ∧ .serveReturned none ∈ a ∧ resolved a)) := by
  have hinv := inv_Run server w h0 sched
  have hh := hist_Run server w h0 sched
  cases hl : listenOutcome server w with
  | some err =>
    obtain ⟨a, b, hab⟩ := List.append_of_mem (hinv.ret_link r hret)
    refine ⟨a, b, hab, ?_⟩
    have := return_unbound hinv hh hl hret
    subst this
    simp
  | none =>
    obtain ⟨a, b, e, hab, hr, he, _, hres, _⟩ := return_bound hinv hh hl hret
    refine ⟨a, b, hab, ?_⟩
    constructor
    · intro hnone
      rw [hr, finalResult_eq_none] at hnone
      subst hnone
      exact ⟨rfl, he, hres⟩
    · rintro ⟨_, hn, _⟩
      have hmem : ∀ ev ∈ a, ev ∈ (Run server w h0 sched).trace := by
        intro ev hev
        rw [hab]
        exact List.mem_append_left _ hev
      have : (none : Option Err) = e := serveReturned_unique hinv (hmem _ hn) (hmem _ he)
      subst this
      rw [hr]
      rfl

/-- C1: every schedule of `Run` can be continued to a return, and whenever
`Run` returns, the result is nil exactly when the listener was bound, the serve
loop returned no error and, before the return, the shutdown step was completed
(the watcher's completion was received, or the timer was received and `Stop`
called). -/
theorem C1_returns_nil_iff (server : MinimalGRPCServer) (w : World) (h0 : List (List Signal))
    (sched : List Action) :
    (∃ ext r, (Run server w h0 (sched ++ ext)).main = .returned r) ∧
    ∀ r, (Run server w h0 sched).main = .returned r →
      ∃ a b, (Run server w h0 sched).trace = a ++ .returned r :: b ∧
        (r = none ↔
          (listenOutcome server w = none ∧ .serveReturned none ∈ a ∧ resolved a)) :=
  ⟨run_can_return server w h0 sched, fun r hret => returned_nil_iff server w h0 sched r hret⟩

/-- C1 at a run with a graceful shutdown: it returns nil, and the three
conditions hold in the history of the return. -/
theorem C1_returns_nil_iff_witness :
    (Run demoServer demoWorld [] gracefulSchedule).main = .returned none ∧
    ∃ a b, (Run demoServer demoWorld [] gracefulSchedule).trace = a ++ .returned none :: b ∧
      listenOutcome demoServer demoWorld = none ∧ .serveReturned none ∈ a ∧ resolved a := by
  refine ⟨by decide, ?_⟩
  obtain ⟨a, b, hab, hiff⟩ :=
    (C1_returns_nil_iff demoServer demoWorld [] gracefulSchedule).2 none (by decide)
  exact ⟨a, b, hab, hiff.mp rfl⟩

theorem step_main_registering (server : MinimalGRPCServer) (w : World) (s : State) (i : Nat)
    (hm : s.main = .registering i) (hi : i < server.serviceRegistrationFuncs.length) :
    (step server w s .main).main = .registering (i + 1) := by
  have hf : server.serviceRegistrationFuncs[i]? = some (server.serviceRegistrationFuncs[i]) :=
    List.getElem?_eq_getElem hi
  simp [step, next, nextMain, hm, hf]

/-- The registration loop runs to its end: `k` main-flow moves take the loop
from index `i` to index `i + k`. -/
theorem exec_registering (server : MinimalGRPCServer) (w : World) :
    ∀ (k : Nat) (s : State) (i : Nat), s.main = .registering i →
      i + k ≤ server.serviceRegistrationFuncs.length →
      (exec server w s (List.replicate k .main)).main = .registering (i + k) := by
  intro k
  induction k with
  | zero => intro s i hm _; simpa [exec] using hm
  | succ k ih =>
    intro s i hm hle
    have h1 := step_main_registering server w s i hm (by omega)
    have h2 := ih (step server w s .main) (i + 1) h1 (by omega)
    rw [List.replicate_succ]
    simp only [exec, List.foldl_cons] at h2 ⊢
    rw [h2]
    congr 1
    omega

theorem step_main_registering_end (server : MinimalGRPCServer) (w : World) (s : State)
    (hm : s.main = .registering server.serviceRegistrationFuncs.length) :
    (step server w s .main).main = .listening := by
  have hn : server.serviceRegistrationFuncs[server.serviceRegistrationFuncs.length]? = none :=
    List.getElem?_eq_none_iff.mpr (Nat.le_refl _)
  simp [step, next, nextMain, hm, hn]

theorem step_main_listening_failure (server : MinimalGRPCServer) (w : World) (s : State)
    (err : Err) (hl : listenOutcome server w = some err) (hm : s.main = .listening) :
    (step server w s .main).main = .returned (some (listenerError server err)) := by
  unfold listenOutcome at hl
  simp [step, next, nextMain, hm, hl]

/-- When the listener cannot be bound, `Run` returns after the registration loop
and the `net.Listen` call: `length + 3` moves of the main flow. -/
theorem run_listen_failure (server : MinimalGRPCServer) (w : World) (h0 : List (List Signal))
    (err : Err) (hl : listenOutcome server w = some err) :
    (Run server w h0 (List.replicate (server.serviceRegistrationFuncs.length + 3) .main)).main =
      .returned (some (listenerError server err)) := by
  have e : List.replicate (server.serviceRegistrationFuncs.length + 3) Action.main =
      [.main] ++ (List.replicate server.serviceRegistrationFuncs.length .main ++ [.main, .main]) := by
    rw [show server.serviceRegistrationFuncs.length + 3 =
      1 + (server.serviceRegistrationFuncs.length + 2) by omega, List.replicate_add,
      List.replicate_add]
    rfl
  rw [e, Run_append, exec_append]
  have h1 : (Run server w h0 [.main]).main = .registering 0 := rfl
  have h2 := exec_registering server w server.serviceRegistrationFuncs.length
    (Run server w h0 [.main]) 0 h1 (by omega)
  simp only [Nat.zero_add] at h2
  have h3 := step_main_registering_end server w _ h2
  exact step_main_listening_failure server w _ err hl h3

/-- C2: when binding the listener fails, `Run` returns (after the registration
loop and the `net.Listen` call) an error wrapping the listen error, and at no
point of any schedule has it subscribed to signals, spawned the serve goroutine
or the watcher, started the timer, or called `GracefulStop` or `Stop`. -/
theorem C2_listen_failure (server : MinimalGRPCServer) (w : World) (h0 : List (List Signal))
    (err : Err) (hl : listenOutcome server w = some err) :
    (Run server w h0 (List.replicate (server.serviceRegistrationFuncs.length + 3) .main)).main =
        .returned (some (.propagate err
          ("An error occurred creating the listener on " ++ server.listenProtocol ++ "/" ++
            toString server.listenPort))) ∧
    ∀ sched : List Action,
      (∀ r, (Run server w h0 sched).main = .returned r → r = some (listenerError server err)) ∧
      (Run server w h0 sched).handlers = h0 ∧
      (Run server w h0 sched).termSignalChan = none ∧
      (Run server w h0 sched).serve = .notStarted ∧
      (Run server w h0 sched).watcher = .notStarted ∧
      (Run server w h0 sched).timer = .notStarted ∧
      .notify notifySignals ∉ (Run server w h0 sched).trace ∧
      .goServe ∉ (Run server w h0 sched).trace ∧
      .serveCalled ∉ (Run server w h0 sched).trace ∧
      .goWatcher ∉ (Run server w h0 sched).trace ∧
      .gracefulStopCalled ∉ (Run server w h0 sched).trace ∧
      .stopCalled ∉ (Run server w h0 sched).trace := by
  refine ⟨run_listen_failure server w h0 err hl, ?_⟩
  intro sched
  have hinv := inv_Run server w h0 sched
  have hh := hist_Run server w h0 sched
  have hctrl : (Run server w h0 sched).serve = .notStarted ∧
      (Run server w h0 sched).watcher = .notStarted ∧
      (Run server w h0 sched).timer = .notStarted ∧
      (Run server w h0 sched).termSignalChan = none := by
    have hc := hinv.ctrl
    unfold ctrlOK at hc
    cases hm : (Run server w h0 sched).main <;> rw [hm] at hc <;> simp only [hl] at hc <;>
      simp_all
  obtain ⟨h1, h2, h3, h4⟩ := hctrl
  have hcnt := hinv.counts
  have k1 := congrArg Summary.notify hcnt
  have k2 := congrArg Summary.goServe hcnt
  have k3 := congrArg Summary.serveCalled hcnt
  have k4 := congrArg Summary.goWatcher hcnt
  have k5 := congrArg Summary.gsCalled hcnt
  have k6 := congrArg Summary.stop hcnt
  simp only [summary, expected, h1, h2, h3, h4] at k1 k2 k3 k4 k5 k6
  refine ⟨fun r hret => return_unbound hinv hh hl hret, ?_, h4, h1, h2, h3, ?_, ?_, ?_, ?_, ?_, ?_⟩
  · have := hinv.handlers_eq
    simpa [h4] using this
  · exact List.count_eq_zero.mp (by simpa using k1)
  · exact List.count_eq_zero.mp (by simpa using k2)
  · exact List.count_eq_zero.mp (by simpa using k3)
  · exact List.count_eq_zero.mp (by simpa using k4)
  · exact List.count_eq_zero.mp (by simpa using k5)
  · exact List.count_eq_zero.mp (by simpa using k6)

/-- C2 at a taken port: five moves of the main flow return the wrapped listen
error, and the subscription table is the one found at the call whatever moves
follow. -/
theorem C2_listen_failure_witness :
    listenOutcome demoServer busyWorld = some (.base "bind: address already in use") ∧
    (Run demoServer busyWorld [[.SIGHUP]] (List.replicate 5 .main)).main =
      .returned (some (.propagate (.base "bind: address already in use")
        "An error occurred creating the listener on tcp/9000")) ∧
    (Run demoServer busyWorld [[.SIGHUP]] (List.replicate 5 .main ++ [.signal .SIGTERM, .serve])).handlers
      = [[.SIGHUP]] :=
  have h := C2_listen_failure demoServer busyWorld [[.SIGHUP]] (.base "bind: address already in use") rfl
  ⟨rfl, h.1, (h.2 (List.replicate 5 .main ++ [.signal .SIGTERM, .serve])).2.1⟩

theorem listenCalled_not_mem_setupTrace (i : Nat) (p ad : String) :
    Event.listenCalled p ad ∉ setupTrace i := by
  simp [setupTrace]

theorem count_registered_setupTrace (n i : Nat) :
    (setupTrace n).count (.registered i) = if i < n then 1 else 0 := by
  induction n with
  | zero => simp [setupTrace]
  | succ n ih =>
    rw [setupTrace_succ, List.count_append, ih]
    by_cases h : i = n
    · subst h; simp
    · have h2 : ¬ n = i := fun h3 => h h3.symm
      by_cases h1 : i < n
      · have : i < n + 1 := by omega
        simp [h1, this, List.count_singleton, h2]
      · have : ¬ i < n + 1 := by omega
        simp [h1, this, List.count_singleton, h2]

theorem applied_length (server : MinimalGRPCServer) :
    applied server server.serviceRegistrationFuncs.length =
      server.serviceRegistrationFuncs.foldl (fun g f => f g) ⟨[]⟩ := by
  simp [applied]

/-- C3: in every schedule, the `i`-th registration function is applied when the
history is exactly: server constructed, functions `0 .. i-1` applied; the
listener is opened when the history is exactly: server constructed, all
functions applied in list order.  So each function is applied at most once, in
order, exactly once by the time `net.Listen` is called and never after, whether
or not the listener binds; all are applied to the one fresh instance, which at
`net.Listen` and ever after is the fold of the list over the empty server. -/
theorem C3_registrations_before_listen (server : MinimalGRPCServer) (w : World)
    (h0 : List (List Signal)) (sched : List Action) :
    (∀ a i b, (Run server w h0 sched).trace = a ++ .registered i :: b →
      a = .newServer :: (List.range i).map .registered ∧
        i < server.serviceRegistrationFuncs.length) ∧
    (∀ a p ad b, (Run server w h0 sched).trace = a ++ .listenCalled p ad :: b →
      a = .newServer :: (List.range server.serviceRegistrationFuncs.length).map .registered ∧
      (∀ i, (Run server w h0 sched).trace.count (.registered i) =
        if i < server.serviceRegistrationFuncs.length then 1 else 0) ∧
      (Run server w h0 sched).grpcServer =
        server.serviceRegistrationFuncs.foldl (fun g f => f g) ⟨[]⟩) ∧
    (∃ k, k ≤ server.serviceRegistrationFuncs.length ∧
      (Run server w h0 sched).grpcServer =
        (server.serviceRegistrationFuncs.take k).foldl (fun g f => f g) ⟨[]⟩) := by
  have hinv := inv_Run server w h0 sched
  have hh := hist_Run server w h0 sched
  refine ⟨fun a i b hab => hh a _ b hab, ?_, ?_⟩
  · intro a p ad b hab
    have hp := hh a _ b hab
    simp only [pre] at hp
    obtain ⟨ha, _, _⟩ := hp
    refine ⟨ha, ?_, ?_⟩
    · intro i
      have hb : (Event.registered i) ∉ b := by
        intro hmem
        obtain ⟨b1, b2, hb12⟩ := List.append_of_mem hmem
        have hq := hh (a ++ .listenCalled p ad :: b1) (.registered i) b2
          (by rw [hab, hb12]; simp)
        simp only [pre] at hq
        have : Event.listenCalled p ad ∈ setupTrace i := by
          rw [← hq.1]; simp
        exact listenCalled_not_mem_setupTrace i p ad this
      rw [hab, List.count_append, List.count_cons, List.count_eq_zero.mpr hb, ha,
        count_registered_setupTrace]
      simp
    · have hs := hinv.setup
      have hm : Event.listenCalled p ad ∈ (Run server w h0 sched).trace := by
        rw [hab]; simp
      unfold setupOK at hs
      cases hmain : (Run server w h0 sched).main <;> rw [hmain] at hs <;>
        simp only at hs <;>
        first
          | (rw [← applied_length]; exact hs)
          | (exfalso
             first
               | (rw [hs.1] at hm; simp at hm)
               | (rw [hs.1] at hm; exact listenCalled_not_mem_setupTrace _ _ _ hm)
               | (rw [hs.2.1] at hm; exact listenCalled_not_mem_setupTrace _ _ _ hm))
  · have hs := hinv.setup
    unfold setupOK at hs
    cases hmain : (Run server w h0 sched).main <;> rw [hmain] at hs <;> simp only at hs
    case newServer =>
      exact ⟨0, Nat.zero_le _, hs.2⟩
    case registering i => exact ⟨i, hs.1, hs.2.2⟩
    case listening => exact ⟨_, Nat.le_refl _, hs.2⟩
    all_goals exact ⟨_, Nat.le_refl _, hs⟩

/-- C3 at a run of the two-service configuration: `net.Listen` is preceded by
exactly the construction and the two registrations in list order, each applied
once, and the server holds both services in that order. -/
theorem C3_registrations_before_listen_witness :
    (Run demoServer demoWorld [] gracefulSchedule).trace =
      [.newServer, .registered 0, .registered 1] ++ .listenCalled "tcp" ":9000" ::
        (Run demoServer demoWorld [] gracefulSchedule).trace.drop 4 ∧
    (Run demoServer demoWorld [] gracefulSchedule).trace.count (.registered 1) = 1 ∧
    (Run demoServer demoWorld [] gracefulSchedule).grpcServer = ⟨["alpha", "beta"]⟩ :=
  have h := (C3_registrations_before_listen demoServer demoWorld [] gracefulSchedule).2.1
    [.newServer, .registered 0, .registered 1] "tcp" ":9000"
    ((Run demoServer demoWorld [] gracefulSchedule).trace.drop 4) (by decide)
  ⟨by decide, h.2.1 1, h.2.2⟩

/-- Once the main flow has returned, nobody receives on `serverStoppedChan`: a
watcher that has not finished never will. -/
theorem watcher_never_done_after_return (server : MinimalGRPCServer) (w : World) :
    ∀ (ext : List Action) (s : State), s.main.isReturned = true → s.watcher.isDone = false →
      (exec server w s ext).main.isReturned = true ∧ (exec server w s ext).watcher.isDone = false := by
  intro ext
  induction ext with
  | nil => intro s h1 h2; exact ⟨h1, h2⟩
  | cons a rest ih =>
    intro s h1 h2
    have key : (step server w s a).main.isReturned = true ∧
        (step server w s a).watcher.isDone = false := by
      unfold step
      cases hn : next server w s a with
      | none => exact ⟨h1, h2⟩
      | some t =>
        simp only [Option.getD]
        obtain ⟨main, serve, watcher, timer, chan, handlers, srv, trace⟩ := s
        cases main <;> simp [MainPC.isReturned] at h1
        cases a <;> simp only [next, nextMain] at hn
        case signal sig =>
          cases chan with
          | none => simp at hn
          | some buf =>
            simp only at hn
            split at hn
            · split at hn <;> (cases hn; exact ⟨rfl, h2⟩)
            · simp at hn
        case serve =>
          cases serve <;> simp at hn
          subst hn
          exact ⟨rfl, h2⟩
        case serveReturns e =>
          cases serve <;> simp at hn
          subst hn
          exact ⟨rfl, h2⟩
        case watcher =>
          cases watcher <;> simp at hn
          subst hn
          exact ⟨rfl, rfl⟩
        case gracefulStopReturns =>
          cases watcher <;> simp at hn
          subst hn
          exact ⟨rfl, rfl⟩
        case timerFires =>
          cases timer <;> simp at hn
          subst hn
          exact ⟨rfl, h2⟩
        all_goals simp at hn
    exact ih _ key.1 key.2

/-- C4 (the code departs from it): a run in which the timer wins the race.
`Run` returns nil while the watcher goroutine is still inside `GracefulStop`
or blocked on its send to the unbuffered `serverStoppedChan`, and in no
continuation does the watcher finish. -/
theorem C4_watcher_left_blocked :
    execStrict demoServer demoWorld (init []) forcedSchedule =
      some (Run demoServer demoWorld [] forcedSchedule) ∧
    (Run demoServer demoWorld [] forcedSchedule).main = .returned none ∧
    (Run demoServer demoWorld [] forcedSchedule).serve = .done ∧
    (Run demoServer demoWorld [] forcedSchedule).watcher = .sending ∧
    ∀ ext : List Action,
      (Run demoServer demoWorld [] (forcedSchedule ++ ext)).watcher ≠ .done := by
  refine ⟨by decide, by decide, by decide, by decide, ?_⟩
  intro ext hdone
  rw [Run_append] at hdone
  have h := (watcher_never_done_after_return demoServer demoWorld ext
    (Run demoServer demoWorld [] forcedSchedule) (by decide) (by decide)).2
  rw [hdone] at h
  simp at h

/-- C5 as stated fails: after a run that returns nil the subscription made by
`signal.Notify` is still in the table, and a second call adds another one. -/
theorem C5_subscription_not_released :
    (Run demoServer demoWorld [] gracefulSchedule).main = .returned none ∧
    (Run demoServer demoWorld [] gracefulSchedule).handlers = [notifySignals] ∧
    (Run demoServer demoWorld [] gracefulSchedule).handlers ≠ [] ∧
    (Run demoServer demoWorld (Run demoServer demoWorld [] gracefulSchedule).handlers
      gracefulSchedule).handlers = [notifySignals, notifySignals] := by
  decide

/-- C5 (amended): `Run` never removes a subscription.  On every exit path on
which the subscription was installed (the listener was bound) the table after
`Run` is the table before the call followed by the one subscription for
interrupt, terminate and quit; on the listen-failure path it is unchanged. -/
theorem C5_subscription_kept (server : MinimalGRPCServer) (w : World) (h0 : List (List Signal))
    (sched : List Action) (r : Option Err)
    (hret : (Run server w h0 sched).main = .returned r) :
    (listenOutcome server w = none →
      (Run server w h0 sched).handlers = h0 ++ [[.SIGINT, .SIGTERM, .SIGQUIT]] ∧
      (Run server w h0 sched).trace.count (.notify [.SIGINT, .SIGTERM, .SIGQUIT]) = 1) ∧
    (listenOutcome server w ≠ none → (Run server w h0 sched).handlers = h0) := by
  have hinv := inv_Run server w h0 sched
  have hc := hinv.ctrl
  have hh := hinv.handlers_eq
  have hn := congrArg Summary.notify hinv.counts
  simp only [summary, expected] at hn
  unfold ctrlOK at hc
  rw [hret] at hc
  simp only at hc
  constructor
  · intro hl
    rcases hc with ⟨err, he, _⟩ | ⟨_, _, _, _, hsome, _⟩
    · rw [hl] at he; cases he
    · rw [hsome] at hh hn
      exact ⟨by simpa [notifySignals] using hh, by simpa [notifySignals] using hn⟩
  · intro hl
    rcases hc with ⟨err, _, _, _, _, _, hnone⟩ | ⟨_, _, _, _, _, hl2⟩
    · rw [hnone] at hh
      simpa using hh
    · exact absurd hl2 hl

/-- C5 (amended) at a run that returns after a forced stop, in a process that
already had one subscription. -/
theorem C5_subscription_kept_witness :
    (Run demoServer demoWorld [[.SIGHUP]] forcedSchedule).main = .returned none ∧
    ((listenOutcome demoServer demoWorld = none →
      (Run demoServer demoWorld [[.SIGHUP]] forcedSchedule).handlers =
        [[.SIGHUP]] ++ [[.SIGINT, .SIGTERM, .SIGQUIT]] ∧
      (Run demoServer demoWorld [[.SIGHUP]] forcedSchedule).trace.count
        (.notify [.SIGINT, .SIGTERM, .SIGQUIT]) = 1) ∧
    (listenOutcome demoServer demoWorld ≠ none →
      (Run demoServer demoWorld [[.SIGHUP]] forcedSchedule).handlers = [[.SIGHUP]])) :=
  ⟨by decide, C5_subscription_kept demoServer demoWorld [[.SIGHUP]] forcedSchedule none (by decide)⟩

/-- The result of `Run` when the serve loop returned an error. -/
theorem returned_serve_error {server : MinimalGRPCServer} {w : World}
    {h0 : List (List Signal)} {sched : List Action} {e : Err} {r : Option Err}
    (hl : listenOutcome server w = none)
    (hserve : .serveReturned (some e) ∈ (Run server w h0 sched).trace)
    (hret : (Run server w h0 sched).main = .returned r) :
    r = some (.propagate (.propagate e "The gRPC server exited with an error")
      "gRPC server returned an error after it was done serving") := by
  have hinv := inv_Run server w h0 sched
  have hh := hist_Run server w h0 sched
  obtain ⟨a, b, e2, hab, hr, he, _, _, _⟩ := return_bound hinv hh hl hret
  have hmem : Event.serveReturned e2 ∈ (Run server w h0 sched).trace := by
    rw [hab]; exact List.mem_append_left _ he
  have : some e = e2 := serveReturned_unique hinv hserve hmem
  subst this
  rw [hr]
  rfl

/-- C6: when the listener binds and the serve loop has returned an error, at
any point, the run can be continued to a return, and every return of `Run` from
then on yields that error wrapped twice (by the serve goroutine and by the
final check); and whenever the main flow receives the serve outcome, the race
was already resolved: the watcher's completion had been received, or the timer
had been received and `Stop` called. -/
theorem C6_serve_error_after_shutdown (server : MinimalGRPCServer) (w : World)
    (h0 : List (List Signal)) (sched : List Action) (e : Err)
    (hl : listenOutcome server w = none)
    (hserve : .serveReturned (some e) ∈ (Run server w h0 sched).trace) :
    (∃ ext, (Run server w h0 (sched ++ ext)).main =
      .returned (some (.propagate (.propagate e "The gRPC server exited with an error")
        "gRPC server returned an error after it was done serving"))) ∧
    (∀ ext r, (Run server w h0 (sched ++ ext)).main = .returned r →
      r = some (.propagate (.propagate e "The gRPC server exited with an error")
        "gRPC server returned an error after it was done serving")) ∧
    (∀ ext a x b, (Run server w h0 (sched ++ ext)).trace = a ++ .recvResult x :: b →
      .recvStopped ∈ a ∨ (.recvTimer ∈ a ∧ .stopCalled ∈ a)) := by
  have key : ∀ ext r, (Run server w h0 (sched ++ ext)).main = .returned r →
      r = some (.propagate (.propagate e "The gRPC server exited with an error")
        "gRPC server returned an error after it was done serving") :=
    fun ext r hret =>
      returned_serve_error hl (trace_Run_append server w h0 sched ext _ hserve) hret
  refine ⟨?_, key, ?_⟩
  · obtain ⟨ext, r, hret⟩ := run_can_return server w h0 sched
    refine ⟨ext, ?_⟩
    rw [hret, key ext r hret]
  · intro ext a x b hab
    have hp := hist_Run server w h0 (sched ++ ext) a _ b hab
    simp only [pre] at hp
    exact hp.2.1

/-- C6 at a run in which `Serve` fails before any signal: the error is
returned only at the end, wrapped twice, after the forced stop. -/
theorem C6_serve_error_after_shutdown_witness :
    listenOutcome demoServer demoWorld = none ∧
    .serveReturned (some (.base "accept: too many open files")) ∈
      (Run demoServer demoWorld [] serveFailedSchedule).trace ∧
    (Run demoServer demoWorld [] (serveFailedSchedule ++ forcedTail)).main =
      .returned (some (.propagate (.propagate (.base "accept: too many open files")
        "The gRPC server exited with an error")
        "gRPC server returned an error after it was done serving")) ∧
    ∀ a x b, (Run demoServer demoWorld [] (serveFailedSchedule ++ forcedTail)).trace =
        a ++ .recvResult x :: b →
      .recvStopped ∈ a ∨ (.recvTimer ∈ a ∧ .stopCalled ∈ a) :=
  have h := C6_serve_error_after_shutdown demoServer demoWorld [] serveFailedSchedule
    (.base "accept: too many open files") rfl (by decide)
  ⟨rfl, by decide, by decide, h.2.2 forcedTail⟩

/-- C7 as stated fails, in both of its parts.  First run: the signal arrives
while the serve goroutine is inside `Serve`, the graceful stop completes and
the timer never fires, yet `Run` returns an error, because `Serve` returned
one.  Second run: the signal arrives while serving and `GracefulStop` returns
while the timer is still running, but the timer fires before the main flow
takes a case of the `select`, which then takes the timer: one warning, one
call of `Stop`, no "exited gracefully" event. -/
theorem C7_graceful_completion_not_enough :
    (execStrict demoServer demoWorld (init []) gracefulErrSchedule =
      some (Run demoServer demoWorld [] gracefulErrSchedule) ∧
    (Run demoServer demoWorld [] startSchedule).serve = .inServe ∧
    (Run demoServer demoWorld [] (startSchedule ++ [.signal .SIGINT])).termSignalChan =
      some [.SIGINT] ∧
    .recvStopped ∈ (Run demoServer demoWorld [] gracefulErrSchedule).trace ∧
    (Run demoServer demoWorld [] gracefulErrSchedule).timer = .running ∧
    (Run demoServer demoWorld [] gracefulErrSchedule).main =
      .returned (some (.propagate (.propagate (.base "accept: too many open files")
        "The gRPC server exited with an error")
        "gRPC server returned an error after it was done serving"))) ∧
    (execStrict demoServer demoWorld (init []) (gracefulFirstSchedule ++ lateTimerTail) =
      some (Run demoServer demoWorld [] (gracefulFirstSchedule ++ lateTimerTail)) ∧
    (Run demoServer demoWorld [] startSchedule).serve = .inServe ∧
    (Run demoServer demoWorld [] gracefulFirstSchedule).serve = .inServe ∧
    (Run demoServer demoWorld [] gracefulFirstSchedule).watcher = .sending ∧
    (Run demoServer demoWorld [] gracefulFirstSchedule).timer = .running ∧
    .gracefulStopReturned ∈ (Run demoServer demoWorld [] gracefulFirstSchedule).trace ∧
    (Run demoServer demoWorld [] (gracefulFirstSchedule ++ lateTimerTail)).main =
      .returned none ∧
    (Run demoServer demoWorld [] (gracefulFirstSchedule ++ lateTimerTail)).trace.count
      (.log .debug "gRPC server has exited gracefully") = 0 ∧
    (Run demoServer demoWorld [] (gracefulFirstSchedule ++ lateTimerTail)).trace.countP
      Event.isWarn = 1 ∧
    (Run demoServer demoWorld [] (gracefulFirstSchedule ++ lateTimerTail)).trace.count
      .stopCalled = 1) := by
  decide

/-- What holds at a return of `Run` after the `select` received the watcher's
completion. -/
theorem graceful_return (server : MinimalGRPCServer) (w : World)
    (h0 : List (List Signal)) (sched : List Action) (r : Option Err)
    (hgraceful : .recvStopped ∈ (Run server w h0 sched).trace)
    (hret : (Run server w h0 sched).main = .returned r) :
    (∃ e, .serveReturned e ∈ (Run server w h0 sched).trace ∧ r = finalResult (serveResultErr e)) ∧
    (r = none ↔ .serveReturned none ∈ (Run server w h0 sched).trace) ∧
    (Run server w h0 sched).trace.count (.log .debug "gRPC server has exited gracefully") = 1 ∧
    (Run server w h0 sched).trace.countP Event.isWarn = 0 ∧
    (Run server w h0 sched).trace.count .stopCalled = 0 ∧
    (Run server w h0 sched).trace.count .recvTimer = 0 := by
  have hinv := inv_Run server w h0 sched
  have hh := hist_Run server w h0 sched
  have hcnt := hinv.counts
  have k0 := congrArg Summary.recvStopped hcnt
  have k1 := congrArg Summary.debugGraceful hcnt
  have k2 := congrArg Summary.warn hcnt
  have k3 := congrArg Summary.stop hcnt
  have k4 := congrArg Summary.recvTimer hcnt
  simp only [summary, expected, hret] at k0 k1 k2 k3 k4
  have hdone : (Run server w h0 sched).watcher.isDone = true := by
    cases hd : (Run server w h0 sched).watcher.isDone
    · rw [hd] at k0
      exact absurd hgraceful (List.count_eq_zero.mp (by simpa using k0))
    · rfl
  have hc := hinv.ctrl
  unfold ctrlOK at hc
  rw [hret] at hc
  simp only at hc
  rcases hc with ⟨err, _, _, _, hw, _⟩ | ⟨_, _, _, hiff, _, hl⟩
  · rw [hw] at hdone; simp at hdone
  · have htimer : (Run server w h0 sched).timer.isReceived = false := by
      cases ht : (Run server w h0 sched).timer.isReceived
      · rfl
      · exact absurd ht (hiff.mp hdone)
    obtain ⟨a, b, e, hab, hr, he, _, _, _⟩ := return_bound hinv hh hl hret
    have hmem : Event.serveReturned e ∈ (Run server w h0 sched).trace := by
      rw [hab]; exact List.mem_append_left _ he
    refine ⟨⟨e, hmem, hr⟩, ?_, ?_, ?_, ?_, ?_⟩
    · rw [hr, finalResult_eq_none]
      constructor
      · intro h; rw [← h]; exact hmem
      · intro h; exact (serveReturned_unique hinv h hmem).symm
    · simpa [hdone, MainPC.pastBranch] using k1
    · simpa [htimer] using k2
    · simpa [htimer] using k3
    · simpa [htimer] using k4

/-- C7 (amended): the condition is the case the `select` takes, not the order
in which `GracefulStop` returns and the timer fires, and the result follows the
serve outcome.  When the `select` has received the watcher's completion, the
run can be continued to a return, and at every return of `Run` from then on:
the result is nil exactly when the serve loop returned no error (otherwise it
is the wrapped serve error), the trace has exactly one debug event "gRPC server
has exited gracefully", no warning event, and no call of `Stop`. -/
theorem C7_graceful_shutdown (server : MinimalGRPCServer) (w : World)
    (h0 : List (List Signal)) (sched : List Action)
    (hgraceful : .recvStopped ∈ (Run server w h0 sched).trace) :
    (∃ ext r, (Run server w h0 (sched ++ ext)).main = .returned r) ∧
    ∀ ext r, (Run server w h0 (sched ++ ext)).main = .returned r →
      (∃ e, .serveReturned e ∈ (Run server w h0 (sched ++ ext)).trace ∧
        r = finalResult (serveResultErr e)) ∧
      (r = none ↔ .serveReturned none ∈ (Run server w h0 (sched ++ ext)).trace) ∧
      (Run server w h0 (sched ++ ext)).trace.count
        (.log .debug "gRPC server has exited gracefully") = 1 ∧
      (Run server w h0 (sched ++ ext)).trace.countP Event.isWarn = 0 ∧
      (Run server w h0 (sched ++ ext)).trace.count .stopCalled = 0 ∧
      (Run server w h0 (sched ++ ext)).trace.count .recvTimer = 0 :=
  ⟨run_can_return server w h0 sched, fun ext r hret =>
    graceful_return server w h0 (sched ++ ext) r
      (trace_Run_append server w h0 sched ext _ hgraceful) hret⟩

/-- C7 (amended) at a run with a graceful shutdown and a clean serve loop. -/
theorem C7_graceful_shutdown_witness :
    .recvStopped ∈ (Run demoServer demoWorld [] gracefulSchedule).trace ∧
    (Run demoServer demoWorld [] (gracefulSchedule ++ [])).main = .returned none ∧
    ((none : Option Err) = none ↔
      .serveReturned none ∈ (Run demoServer demoWorld [] (gracefulSchedule ++ [])).trace) ∧
    (Run demoServer demoWorld [] (gracefulSchedule ++ [])).trace.count
      (.log .debug "gRPC server has exited gracefully") = 1 ∧
    (Run demoServer demoWorld [] (gracefulSchedule ++ [])).trace.countP Event.isWarn = 0 ∧
    (Run demoServer demoWorld [] (gracefulSchedule ++ [])).trace.count .stopCalled = 0 ∧
    (Run demoServer demoWorld [] (gracefulSchedule ++ [])).trace.count .recvTimer = 0 :=
  ⟨by decide, by decide,
    ((C7_graceful_shutdown demoServer demoWorld [] gracefulSchedule (by decide)).2 [] none
      (by decide)).2⟩

/-- What holds at a return of `Run` after the `select` received the timer. -/
theorem forced_return (server : MinimalGRPCServer) (w : World)
    (h0 : List (List Signal)) (sched : List Action) (r : Option Err)
    (hforced : .recvTimer ∈ (Run server w h0 sched).trace)
    (hret : (Run server w h0 sched).main = .returned r) :
    (Run server w h0 sched).trace.count .stopCalled = 1 ∧
    (Run server w h0 sched).trace.countP Event.isWarn = 1 ∧
    (Run server w h0 sched).trace.count (.log .warn (forcedWarning server w)) = 1 ∧
    (∃ p q : String, forcedWarning server w = p ++ w.formatDuration server.stopGracePeriod ++ q) ∧
    (∃ e, .serveReturned e ∈ (Run server w h0 sched).trace ∧ r = finalResult (serveResultErr e)) ∧
    (.serveReturned none ∈ (Run server w h0 sched).trace → r = none) ∧
    (∀ e, .serveReturned (some e) ∈ (Run server w h0 sched).trace →
      r = some (.propagate (.propagate e "The gRPC server exited with an error")
        "gRPC server returned an error after it was done serving")) := by
  have hinv := inv_Run server w h0 sched
  have hh := hist_Run server w h0 sched
  have hcnt := hinv.counts
  have k0 := congrArg Summary.recvTimer hcnt
  have k1 := congrArg Summary.stop hcnt
  have k2 := congrArg Summary.warn hcnt
  have k3 := congrArg Summary.warnText hcnt
  simp only [summary, expected, hret] at k0 k1 k2 k3
  have htimer : (Run server w h0 sched).timer.isReceived = true := by
    cases hd : (Run server w h0 sched).timer.isReceived
    · rw [hd] at k0
      exact absurd hforced (List.count_eq_zero.mp (by simpa using k0))
    · rfl
  have hc := hinv.ctrl
  unfold ctrlOK at hc
  rw [hret] at hc
  simp only at hc
  rcases hc with ⟨err, _, _, _, _, ht, _⟩ | ⟨_, _, _, _, _, hl⟩
  · rw [ht] at htimer; simp at htimer
  · obtain ⟨a, b, e, hab, hr, he, _, _, _⟩ := return_bound hinv hh hl hret
    have hmem : Event.serveReturned e ∈ (Run server w h0 sched).trace := by
      rw [hab]; exact List.mem_append_left _ he
    refine ⟨?_, ?_, ?_, ⟨_, _, rfl⟩, ⟨e, hmem, hr⟩, ?_, ?_⟩
    · simpa [htimer, MainPC.pastStop] using k1
    · simpa [htimer, MainPC.pastWarn] using k2
    · simpa [htimer, MainPC.pastWarn] using k3
    · intro h
      have : (none : Option Err) = e := serveReturned_unique hinv h hmem
      subst this
      rw [hr]; rfl
    · intro e1 h
      have : some e1 = e := serveReturned_unique hinv h hmem
      subst this
      rw [hr]; rfl

/-- C8 as stated fails: the signal arrives while serving and the timer fires
while the watcher is still inside `GracefulStop`, but `GracefulStop` returns
before the main flow takes a case of the `select`, which then takes the
watcher's completion: `Run` returns nil with no call of `Stop` and no
warning. -/
theorem C8_timer_first_not_enough :
    execStrict demoServer demoWorld (init []) (timerFirstSchedule ++ lateGracefulTail) =
      some (Run demoServer demoWorld [] (timerFirstSchedule ++ lateGracefulTail)) ∧
    (Run demoServer demoWorld [] startSchedule).serve = .inServe ∧
    (Run demoServer demoWorld [] timerFirstSchedule).serve = .inServe ∧
    (Run demoServer demoWorld [] timerFirstSchedule).timer = .fired ∧
    (Run demoServer demoWorld [] timerFirstSchedule).watcher = .inGracefulStop ∧
    .gracefulStopReturned ∉ (Run demoServer demoWorld [] timerFirstSchedule).trace ∧
    (Run demoServer demoWorld [] (timerFirstSchedule ++ lateGracefulTail)).main =
      .returned none ∧
    (Run demoServer demoWorld [] (timerFirstSchedule ++ lateGracefulTail)).trace.count
      .stopCalled = 0 ∧
    (Run demoServer demoWorld [] (timerFirstSchedule ++ lateGracefulTail)).trace.countP
      Event.isWarn = 0 ∧
    (Run demoServer demoWorld [] (timerFirstSchedule ++ lateGracefulTail)).trace.count
      (.log .debug "gRPC server has exited gracefully") = 1 := by
  decide

/-- C8 (amended): the condition is the case the `select` takes, not the order
in which the timer fires and `GracefulStop` returns.  When the `select` has
received the timer, the run can be continued to a return, and at every return
of `Run` from then on: `Stop` was called exactly once, the trace has exactly
one warning event, its text is the one of line 66 and contains the rendering of
the configured `stopGracePeriod`, and the result is decided by the serve
outcome alone: nil when the serve loop returned no error, the wrapped error
otherwise. -/
theorem C8_forced_shutdown (server : MinimalGRPCServer) (w : World)
    (h0 : List (List Signal)) (sched : List Action)
    (hforced : .recvTimer ∈ (Run server w h0 sched).trace) :
    (∃ ext r, (Run server w h0 (sched ++ ext)).main = .returned r) ∧
    ∀ ext r, (Run server w h0 (sched ++ ext)).main = .returned r →
      (Run server w h0 (sched ++ ext)).trace.count .stopCalled = 1 ∧
      (Run server w h0 (sched ++ ext)).trace.countP Event.isWarn = 1 ∧
      (Run server w h0 (sched ++ ext)).trace.count (.log .warn (forcedWarning server w)) = 1 ∧
      (∃ p q : String,
        forcedWarning server w = p ++ w.formatDuration server.stopGracePeriod ++ q) ∧
      (∃ e, .serveReturned e ∈ (Run server w h0 (sched ++ ext)).trace ∧
        r = finalResult (serveResultErr e)) ∧
      (.serveReturned none ∈ (Run server w h0 (sched ++ ext)).trace → r = none) ∧
      (∀ e, .serveReturned (some e) ∈ (Run server w h0 (sched ++ ext)).trace →
        r = some (.propagate (.propagate e "The gRPC server exited with an error")
          "gRPC server returned an error after it was done serving")) :=
  ⟨run_can_return server w h0 sched, fun ext r hret =>
    forced_return server w h0 (sched ++ ext) r
      (trace_Run_append server w h0 sched ext _ hforced) hret⟩

/-- C8 (amended) at a run in which the `select` takes the timer while the
watcher is still inside `GracefulStop`, and `Serve` returns nil after the
forced stop. -/
theorem C8_forced_shutdown_witness :
    .recvTimer ∈ (Run demoServer demoWorld [] timerWonSchedule).trace ∧
    (Run demoServer demoWorld [] (timerWonSchedule ++ afterTimerWon)).main = .returned none ∧
    (Run demoServer demoWorld [] (timerWonSchedule ++ afterTimerWon)).trace.count .stopCalled = 1 ∧
    (Run demoServer demoWorld [] (timerWonSchedule ++ afterTimerWon)).trace.countP Event.isWarn
      = 1 ∧
    (Run demoServer demoWorld [] (timerWonSchedule ++ afterTimerWon)).trace.count
      (.log .warn (forcedWarning demoServer demoWorld)) = 1 ∧
    forcedWarning demoServer demoWorld =
      "gRPC server failed to stop gracefully after 10s; hard-stopping now..." :=
  have h := (C8_forced_shutdown demoServer demoWorld [] timerWonSchedule (by decide)).2
    afterTimerWon none (by decide)
  ⟨by decide, by decide, h.1, h.2.1, h.2.2.1, by decide⟩

theorem observe_step_signal (server : MinimalGRPCServer) (w : World) (s : State) (sig : Signal) :
    observe (step server w s (.signal sig)) = observe s := by
  obtain ⟨main, serve, watcher, timer, chan, handlers, srv, trace⟩ := s
  cases chan with
  | none => rfl
  | some buf =>
    simp only [step, next]
    split
    · split <;> rfl
    · rfl

theorem main_step_signal (server : MinimalGRPCServer) (w : World) (s : State) (sig : Signal) :
    (step server w s (.signal sig)).main = s.main := by
  have h := congrArg State.main (observe_step_signal server w s sig)
  exact h

theorem step_signal_full (server : MinimalGRPCServer) (w : World) (s : State) (sig : Signal)
    (x : Signal) (rest : List Signal) (h : s.termSignalChan = some (x :: rest)) :
    step server w s (.signal sig) = s := by
  simp only [step, next, h, termSignalChanCap]
  split <;> simp

theorem pastReceive_step (server : MinimalGRPCServer) (w : World) (s : State) (a : Action)
    (h : s.main.pastReceive = true) : (step server w s a).main.pastReceive = true := by
  unfold step
  cases hn : next server w s a with
  | none => exact h
  | some t =>
    simp only [Option.getD]
    obtain ⟨main, serve, watcher, timer, chan, handlers, srv, trace⟩ := s
    cases a <;> simp only [next, nextMain] at hn
    case signal sig =>
      cases chan with
      | none => simp at hn
      | some buf =>
        simp only at hn
        split at hn
        · split at hn <;> (cases hn; exact h)
        · simp at hn
    case main =>
      cases main <;> simp [MainPC.pastReceive, MainPC.pastSignal, MainPC.isReturned] at h <;>
        first
          | (cases hn; rfl)
          | cases hn
          | (cases serve <;> simp at hn; subst hn; rfl)
    case serve => cases serve <;> simp at hn; subst hn; exact h
    case serveReturns e => cases serve <;> simp at hn; subst hn; exact h
    case watcher => cases watcher <;> simp at hn; subst hn; exact h
    case gracefulStopReturns => cases watcher <;> simp at hn; subst hn; exact h
    case timerFires => cases timer <;> simp at hn; subst hn; exact h
    case selectStopped => cases main <;> cases watcher <;> simp at hn; subst hn; rfl
    case selectTimer => cases main <;> cases timer <;> simp at hn; subst hn; rfl

/-- Past line 55 no move other than the relay of a signal looks at the buffer
of `termSignalChan`. -/
theorem observe_step_congr (server : MinimalGRPCServer) (w : World) (s t : State) (a : Action)
    (ha : a.isSignal = false) (hp : s.main.pastReceive = true) (h : observe s = observe t) :
    observe (step server w s a) = observe (step server w t a) := by
  obtain ⟨main, serve, watcher, timer, chan, handlers, srv, trace⟩ := s
  obtain ⟨main2, serve2, watcher2, timer2, chan2, handlers2, srv2, trace2⟩ := t
  simp only [observe, State.mk.injEq] at h
  obtain ⟨h1, h2, h3, h4, h5, h6, h7, h8⟩ := h
  subst h1 h2 h3 h4 h6 h7 h8
  cases a <;> simp only [Action.isSignal, reduceCtorEq] at ha
  case main =>
    cases main <;> simp [MainPC.pastReceive, MainPC.pastSignal, MainPC.isReturned] at hp <;>
      first
        | (simp [step, next, nextMain, observe, h5]; done)
        | (cases serve <;> simp [step, next, nextMain, observe, h5])
  case serve => cases serve <;> simp [step, next, observe, h5]
  case serveReturns e => cases serve <;> simp [step, next, observe, h5]
  case watcher => cases watcher <;> simp [step, next, observe, h5]
  case gracefulStopReturns => cases watcher <;> simp [step, next, observe, h5]
  case timerFires => cases timer <;> simp [step, next, observe, h5]
  case selectStopped => cases main <;> cases watcher <;> simp [step, next, observe, h5]
  case selectTimer => cases main <;> cases timer <;> simp [step, next, observe, h5]

theorem waiting_step (server : MinimalGRPCServer) (w : World) (s : State) (a : Action)
    (ha : a.isSignal = false) (h : waiting s) :
    (step server w s a).main.pastReceive = true ∨ waiting (step server w s a) := by
  obtain ⟨main, serve, watcher, timer, chan, handlers, srv, trace⟩ := s
  obtain ⟨hm, x, rest, hc⟩ := h
  simp only at hm hc
  subst hc
  cases a <;> simp only [Action.isSignal, reduceCtorEq] at ha
  case main =>
    rcases hm with hm | hm <;> subst hm
    · right
      exact ⟨Or.inr rfl, x, rest, rfl⟩
    · left
      rfl
  case serve =>
    right
    cases serve <;> exact ⟨hm, x, rest, rfl⟩
  case serveReturns e =>
    right
    cases serve <;> exact ⟨hm, x, rest, rfl⟩
  case watcher =>
    right
    cases watcher <;> exact ⟨hm, x, rest, rfl⟩
  case gracefulStopReturns =>
    right
    cases watcher <;> exact ⟨hm, x, rest, rfl⟩
  case timerFires =>
    right
    cases timer <;> exact ⟨hm, x, rest, rfl⟩
  case selectStopped =>
    right
    rcases hm with hm | hm <;> subst hm <;> exact ⟨by simp [step, next], x, rest, rfl⟩
  case selectTimer =>
    right
    rcases hm with hm | hm <;> subst hm <;> exact ⟨by simp [step, next], x, rest, rfl⟩

/-- Once a signal has reached the subscription, dropping every later signal
from the schedule changes nothing but the contents of the channel buffer. -/
theorem erase_later_signals (server : MinimalGRPCServer) (w : World) :
    ∀ (post : List Action) (s t : State), observe s = observe t →
      (s.main.pastReceive = true ∨ (s = t ∧ waiting s)) →
      observe (exec server w s post) =
        observe (exec server w t (post.filter (fun a => !a.isSignal))) := by
  intro post
  induction post with
  | nil => intro s t h _; simpa [exec] using h
  | cons a rest ih =>
    intro s t h hr
    cases ha : a.isSignal
    · have hf : (a :: rest).filter (fun a => !a.isSignal) =
          a :: rest.filter (fun a => !a.isSignal) := by simp [ha]
      rw [hf]
      show observe (exec server w (step server w s a) rest) =
        observe (exec server w (step server w t a) (rest.filter (fun a => !a.isSignal)))
      rcases hr with hp | ⟨hst, hw⟩
      · exact ih _ _ (observe_step_congr server w s t a ha hp h)
          (Or.inl (pastReceive_step server w s a hp))
      · subst hst
        refine ih _ _ rfl ?_
        rcases waiting_step server w s a ha hw with h1 | h1
        · exact Or.inl h1
        · exact Or.inr ⟨rfl, h1⟩
    · have hf : (a :: rest).filter (fun a => !a.isSignal) =
          rest.filter (fun a => !a.isSignal) := by simp [ha]
      rw [hf]
      show observe (exec server w (step server w s a) rest) =
        observe (exec server w t (rest.filter (fun a => !a.isSignal)))
      cases a <;> simp only [Action.isSignal, reduceCtorEq] at ha
      rename_i sig
      refine ih _ _ ((observe_step_signal server w s sig).trans h) ?_
      rcases hr with hp | ⟨hst, hw⟩
      · left
        rw [main_step_signal]
        exact hp
      · right
        have hw2 := hw
        obtain ⟨_, x, r, hc⟩ := hw2
        rw [step_signal_full server w s sig x r hc]
        exact ⟨hst, hw⟩

theorem b2n_le_one (b : Bool) : b2n b ≤ 1 := by
  cases b <;> simp

/-- C9: once a termination signal has been relayed to the subscription of this
call, the signals relayed after it change nothing that `Run` does or returns:
the run with all of them and the run with none of them agree on every
component of the state (program points, server, subscriptions, the whole trace
with its log events and its result) except the unread contents of the channel
buffer.  In every schedule the main flow receives from `termSignalChan` at most
once, spawns the watcher at most once, and `GracefulStop` and `Stop` are each
called at most once; when `Run` has returned after subscribing it has received
from `termSignalChan` exactly once. -/
theorem C9_later_signals_have_no_effect (server : MinimalGRPCServer) (w : World)
    (h0 : List (List Signal)) (before : List Action) (sig : Signal) (post : List Action)
    (hsub : (Run server w h0 before).termSignalChan ≠ none) (hsig : sig ∈ notifySignals) :
    observe (Run server w h0 (before ++ .signal sig :: post)) =
      observe (Run server w h0
        (before ++ .signal sig :: post.filter (fun a => !a.isSignal))) ∧
    (∀ sched : List Action,
      (Run server w h0 sched).trace.countP Event.isRecvSignal ≤ 1 ∧
      (Run server w h0 sched).trace.count .goWatcher ≤ 1 ∧
      (Run server w h0 sched).trace.count .gracefulStopCalled ≤ 1 ∧
      (Run server w h0 sched).trace.count .stopCalled ≤ 1 ∧
      ((Run server w h0 sched).main.isReturned = true →
        (Run server w h0 sched).trace.countP Event.isRecvSignal = 1)) := by
  have hinv := inv_Run server w h0 before
  have hc := hinv.ctrl
  have hL : listenOutcome server w = none := by
    unfold ctrlOK at hc
    cases hm : (Run server w h0 before).main <;> rw [hm] at hc <;> simp only at hc <;>
      first
        | exact absurd hc.2.2.2 hsub
        | exact absurd hc.2.2.2.1 hsub
        | exact hc.2.2.2.2
        | exact hc.2.2.2.2.2
        | exact hc.2.2.2.2.2.2
        | exact hc.2.2.2.2.2.2.2
        | (rcases hc with ⟨_, _, _, _, _, _, h⟩ | ⟨_, _, _, _, _, h⟩
           · exact absurd h hsub
           · exact h)
  constructor
  · rw [Run_append, Run_append]
    show observe (exec server w (step server w (Run server w h0 before) (.signal sig)) post) =
      observe (exec server w (step server w (Run server w h0 before) (.signal sig))
        (post.filter (fun a => !a.isSignal)))
    refine erase_later_signals server w post _ _ rfl ?_
    cases hch : (Run server w h0 before).termSignalChan with
    | none => exact absurd hch hsub
    | some buf =>
      have hmain := main_step_signal server w (Run server w h0 before) sig
      have hbuf : ∃ x rest, (step server w (Run server w h0 before) (.signal sig)).termSignalChan
          = some (x :: rest) := by
        simp only [step, next, hch, hsig, if_true, termSignalChanCap]
        cases buf with
        | nil => exact ⟨sig, [], by simp⟩
        | cons x rest => exact ⟨x, rest, by simp [hch]⟩
      unfold ctrlOK at hc
      cases hm : (Run server w h0 before).main <;> rw [hm] at hc hmain <;> simp only at hc <;>
        first
          | (rw [hch] at hc; simp at hc; done)
          | (left; rw [MainPC.pastReceive, hmain]; rfl)
          | (right; exact ⟨rfl, ⟨Or.inl hmain, hbuf⟩⟩)
          | (right; exact ⟨rfl, ⟨Or.inr hmain, hbuf⟩⟩)
  · intro sched
    have hi := inv_Run server w h0 sched
    have hcnt := hi.counts
    have k1 := congrArg Summary.recvSignal hcnt
    have k2 := congrArg Summary.goWatcher hcnt
    have k3 := congrArg Summary.gsCalled hcnt
    have k4 := congrArg Summary.stop hcnt
    simp only [summary, expected] at k1 k2 k3 k4
    refine ⟨by rw [k1]; exact b2n_le_one _, by rw [k2]; exact b2n_le_one _,
      by rw [k3]; exact b2n_le_one _, by rw [k4]; exact b2n_le_one _, ?_⟩
    intro hret
    rw [k1]
    have hc2 := hi.ctrl
    unfold ctrlOK at hc2
    cases hm : (Run server w h0 sched).main <;> rw [hm] at hret <;>
      simp [MainPC.isReturned] at hret
    rw [hm] at hc2
    simp only [hL] at hc2
    rcases hc2 with ⟨err, he, _⟩ | ⟨_, hsp, _⟩
    · cases he
    · simp [hsp]

/-- C9 at a run in which four more signals follow the first: the state is the
one of the run with the first signal only, unread buffer apart. -/
theorem C9_later_signals_have_no_effect_witness :
    (Run demoServer demoWorld [] startSchedule).termSignalChan ≠ none ∧
    Signal.SIGTERM ∈ notifySignals ∧
    observe (Run demoServer demoWorld []
      (startSchedule ++ .signal .SIGTERM ::
        [.signal .SIGINT, .main, .signal .SIGQUIT, .main, .main, .watcher, .signal .SIGTERM,
          .gracefulStopReturns, .selectStopped, .main, .serveReturns none, .signal .SIGINT, .main]))
      =
    observe (Run demoServer demoWorld []
      (startSchedule ++ .signal .SIGTERM ::
        [.main, .main, .main, .watcher, .gracefulStopReturns, .selectStopped, .main,
          .serveReturns none, .main])) :=
  ⟨by decide, by decide,
    (C9_later_signals_have_no_effect demoServer demoWorld [] startSchedule .SIGTERM
      [.signal .SIGINT, .main, .signal .SIGQUIT, .main, .main, .watcher, .signal .SIGTERM,
        .gracefulStopReturns, .selectStopped, .main, .serveReturns none, .signal .SIGINT, .main]
      (by decide) (by decide)).1⟩

/-- C10: with the listener bound, in every schedule: as long as the main flow
has received no termination signal, the watcher is not spawned, neither
`GracefulStop` nor `Stop` is called and `Run` has not returned, whatever the
serve loop did; each of these events, when it happens, has a received signal in
its history; and an outcome returned by `Serve` stays with the serve goroutine,
blocked on its send, until the main flow receives that very value after the
race was resolved. -/
theorem C10_serve_exit_does_not_shut_down (server : MinimalGRPCServer) (w : World)
    (h0 : List (List Signal)) (sched : List Action)
    (hl : listenOutcome server w = none) :
    (¬ signalled (Run server w h0 sched).trace →
      (Run server w h0 sched).main.isReturned = false ∧
      (Run server w h0 sched).watcher = .notStarted ∧
      .goWatcher ∉ (Run server w h0 sched).trace ∧
      .gracefulStopCalled ∉ (Run server w h0 sched).trace ∧
      .stopCalled ∉ (Run server w h0 sched).trace) ∧
    (∀ a b, (Run server w h0 sched).trace = a ++ .gracefulStopCalled :: b → signalled a) ∧
    (∀ a b, (Run server w h0 sched).trace = a ++ .stopCalled :: b → signalled a) ∧
    (∀ a r b, (Run server w h0 sched).trace = a ++ .returned r :: b → signalled a) ∧
    (∀ e, .serveReturned e ∈ (Run server w h0 sched).trace →
      ((Run server w h0 sched).serve = .sending (serveResultErr e) ∧
        (Run server w h0 sched).trace.countP Event.isRecvResult = 0) ∨
      ((Run server w h0 sched).serve = .done ∧
        ∃ a b, (Run server w h0 sched).trace = a ++ .recvResult (serveResultErr e) :: b ∧
          .serveReturned e ∈ a ∧ resolved a ∧ signalled a)) := by
  have hinv := inv_Run server w h0 sched
  have hh := hist_Run server w h0 sched
  have hcnt := hinv.counts
  refine ⟨?_, ?_, ?_, ?_, ?_⟩
  · intro hns
    have k1 := congrArg Summary.recvSignal hcnt
    have k2 := congrArg Summary.goWatcher hcnt
    have k3 := congrArg Summary.gsCalled hcnt
    have k4 := congrArg Summary.stop hcnt
    simp only [summary, expected] at k1 k2 k3 k4
    have hz : (Run server w h0 sched).main.pastSignal = false ∧
        (Run server w h0 sched).watcher.spawned = false := by
      cases hb : ((Run server w h0 sched).main.pastSignal || (Run server w h0 sched).watcher.spawned)
      · simpa using hb
      · rw [hb] at k1
        exact absurd (signalled_of_count (by simpa using k1)) hns
    have hw : (Run server w h0 sched).watcher = .notStarted := by
      cases hws : (Run server w h0 sched).watcher <;> rw [hws] at hz <;> simp at hz
    have hc := hinv.ctrl
    unfold ctrlOK at hc
    have hret : (Run server w h0 sched).main.isReturned = false := by
      cases hm : (Run server w h0 sched).main <;> simp [MainPC.isReturned]
      rw [hm] at hc
      simp only [hl] at hc
      rcases hc with ⟨err, he, _⟩ | ⟨_, hsp, _⟩
      · cases he
      · rw [hz.2] at hsp; cases hsp
    have hst : ((Run server w h0 sched).timer.isReceived && (Run server w h0 sched).main.pastStop)
        = false := by
      cases hm : (Run server w h0 sched).main <;> rw [hm] at hc hz hret <;>
        simp [MainPC.pastStop, MainPC.pastSignal, MainPC.isReturned] at hz hret ⊢
    rw [hw] at k2 k3
    rw [hst] at k4
    exact ⟨hret, hw, List.count_eq_zero.mp (by simpa using k2),
      List.count_eq_zero.mp (by simpa using k3), List.count_eq_zero.mp (by simpa using k4)⟩
  · intro a b hab
    exact hh a _ b hab
  · intro a b hab
    exact (hh a _ b hab).1
  · intro a r b hab
    have hp := hh a _ b hab
    simp only [pre, hl] at hp
    obtain ⟨x, hx, _⟩ := hp
    obtain ⟨a1, b1, ha1⟩ := List.append_of_mem hx
    have hp2 := hh a1 (.recvResult x) (b1 ++ .returned r :: b) (by rw [hab, ha1]; simp)
    simp only [pre] at hp2
    refine signalled_mono hp2.2.2 ?_
    intro ev hev
    rw [ha1]
    exact List.mem_append_left _ hev
  · intro e he
    have k1 := congrArg Summary.serveReturned hcnt
    have k2 := congrArg Summary.recvResult hcnt
    simp only [summary, expected] at k1 k2
    have hfin : (Run server w h0 sched).serve.finished = true := by
      cases hf : (Run server w h0 sched).serve.finished
      · rw [hf] at k1
        exact absurd rfl (List.countP_eq_zero.mp (by simpa using k1) _ he)
      · rfl
    cases hs : (Run server w h0 sched).serve <;> rw [hs] at hfin <;> simp at hfin
    case sending x =>
      obtain ⟨e2, hx, he2⟩ := hinv.serve_link x hs
      have : e = e2 := serveReturned_unique hinv he he2
      subst this
      subst hx
      left
      rw [hs] at k2
      exact ⟨rfl, by simpa using k2⟩
    case done =>
      right
      refine ⟨rfl, ?_⟩
      rw [hs] at k2
      have hpos : 0 < (Run server w h0 sched).trace.countP Event.isRecvResult := by
        rw [k2]; simp
      obtain ⟨ev, hev, hp⟩ := List.countP_pos_iff.mp hpos
      cases ev <;> simp [Event.isRecvResult] at hp
      rename_i x
      obtain ⟨a, b, hab⟩ := List.append_of_mem hev
      have hp2 := hh a _ b hab
      simp only [pre] at hp2
      obtain ⟨⟨e2, he2, hx⟩, hres, hsig⟩ := hp2
      have hmem : Event.serveReturned e2 ∈ (Run server w h0 sched).trace := by
        rw [hab]; exact List.mem_append_left _ he2
      have : e = e2 := serveReturned_unique hinv he hmem
      subst this
      subst hx
      exact ⟨a, b, hab, he2, hres, hsig⟩

/-- C10 at a run in which `Serve` fails and no signal arrives: the main flow
stays on line 55 whatever else is tried, and nothing is stopped. -/
theorem C10_serve_exit_does_not_shut_down_witness :
    listenOutcome demoServer demoWorld = none ∧
    .serveReturned (some (.base "accept: too many open files")) ∈
      (Run demoServer demoWorld [] earlyExitSchedule).trace ∧
    (Run demoServer demoWorld [] earlyExitSchedule).main = .awaitingSignal ∧
    ¬ signalled (Run demoServer demoWorld [] earlyExitSchedule).trace ∧
    (Run demoServer demoWorld [] earlyExitSchedule).main.isReturned = false ∧
    (Run demoServer demoWorld [] earlyExitSchedule).watcher = .notStarted ∧
    .goWatcher ∉ (Run demoServer demoWorld [] earlyExitSchedule).trace ∧
    .gracefulStopCalled ∉ (Run demoServer demoWorld [] earlyExitSchedule).trace ∧
    .stopCalled ∉ (Run demoServer demoWorld [] earlyExitSchedule).trace :=
  ⟨rfl, by decide, by decide, by decide,
    (C10_serve_exit_does_not_shut_down demoServer demoWorld [] earlyExitSchedule rfl).1
      (by decide)⟩

end Server
